import Mathlib

/-!
# BeadHub coordination core — verification development

A shallow embedding of the BeadHub coordination hub (Python/FastAPI source)
into Lean 4, together with theorems settling the specification claims about
it.  SQL tables are modelled as lists of row structures, Redis as an explicit
key/value state, async handlers as pure state-passing functions, and HTTP
failures as explicit error results.  Helper functions whose sources live
outside the provided tree (UUID parsing, HMAC, git-URL canonicalisation,
role validation) are taken as parameters, so every theorem quantifies over
all their possible behaviours.
-/

namespace BeadHub

/-! ## Association-list helpers (model of SQL rows keyed lookups / Redis keys) -/

/-- First-match lookup in an association list (Redis GET / first row fetch). -/
def alistGet {α : Type} (l : List (String × α)) (key : String) : Option α :=
  match l.find? (fun p => p.1 = key) with
  | some p => some p.2
  | none => none

/-- Replace the first binding of `key`, or append one (Redis SET / HSET field). -/
def alistSet {α : Type} (l : List (String × α)) (key : String) (v : α) :
    List (String × α) :=
  match l with
  | [] => [(key, v)]
  | p :: rest =>
      if p.1 = key then (key, v) :: rest else p :: alistSet rest key v

/-- Delete every binding of `key` (Redis DEL). -/
def alistDel {α : Type} (l : List (String × α)) (key : String) :
    List (String × α) :=
  l.filter (fun p => p.1 ≠ key)

theorem alistGet_alistSet {α : Type} (l : List (String × α)) (k k' : String) (v : α) :
    alistGet (alistSet l k v) k' = if k' = k then some v else alistGet l k' := by
  induction l with
  | nil =>
      by_cases h : k' = k
      · simp [alistSet, alistGet, List.find?, h]
      · have hk : ¬ k = k' := fun he => h he.symm
        simp [alistSet, alistGet, List.find?, h, hk]
  | cons p rest ih =>
      by_cases hp : p.1 = k
      · by_cases h : k' = k
        · simp [alistSet, hp, alistGet, List.find?, h]
        · have hk : ¬ k = k' := fun he => h he.symm
          have hpk : ¬ p.1 = k' := by rw [hp]; exact hk
          simp [alistSet, hp, alistGet, List.find?, h, hk, hpk]
      · by_cases h : p.1 = k'
        · have hkk : ¬ k' = k := fun he => hp (by rw [h, he])
          simp [alistSet, hp, alistGet, List.find?, h, hkk]
        · simpa [alistSet, hp, alistGet, List.find?, h] using ih

/-! ## C10 — actor binding (`beadhub/auth.py`, `enforce_actor_binding`) -/

/-- The resolved request identity (`AuthIdentity` fields used by
`enforce_actor_binding`): `auth_mode` is `"bearer"` or `"proxy"`, `agent_id`
is the bound agent UUID when present. -/
structure AuthIdentity where
  auth_mode : String
  agent_id : Option String
deriving Repr, DecidableEq

/-- Outcome of a handler step: success or an HTTP error (status, detail). -/
inductive HandlerResult (α : Type) where
  | ok (value : α)
  | httpError (status : Nat) (detail : String)
deriving Repr, DecidableEq

/-- `enforce_actor_binding(identity, workspace_id, detail)` from
`beadhub/auth.py`: raises 403 when a bearer identity carries an `agent_id`
different from `workspace_id`; otherwise returns `None`. -/
def enforce_actor_binding (identity : AuthIdentity) (workspace_id : String)
    (detail : String := "workspace_id does not match API key identity") :
    HandlerResult Unit :=
  match identity.agent_id with
  | some a =>
      if identity.auth_mode = "bearer" ∧ a ≠ workspace_id then
        .httpError 403 detail
      else .ok ()
  | none => .ok ()

/-- C10: `enforce_actor_binding` rejects with 403
"workspace_id does not match API key identity" iff the identity is in bearer
mode with a non-null `agent_id` different from `workspace_id`; bearer
identities with `agent_id = None` and proxy identities always pass. -/
theorem C10_actor_binding (identity : AuthIdentity) (workspace_id : String) :
    (enforce_actor_binding identity workspace_id =
        .httpError 403 "workspace_id does not match API key identity" ↔
      identity.auth_mode = "bearer" ∧ ∃ a, identity.agent_id = some a ∧
        a ≠ workspace_id) ∧
    (identity.auth_mode = "bearer" → identity.agent_id = none →
      enforce_actor_binding identity workspace_id = .ok ()) ∧
    (identity.auth_mode = "proxy" →
      enforce_actor_binding identity workspace_id = .ok ()) := by
  refine ⟨?_, ?_, ?_⟩
  · constructor
    · intro h
      match ha : identity.agent_id with
      | none => simp [enforce_actor_binding, ha] at h
      | some a =>
          simp only [enforce_actor_binding, ha] at h
          by_cases hb : identity.auth_mode = "bearer" ∧ a ≠ workspace_id
          · exact ⟨hb.1, a, rfl, hb.2⟩
          · simp [hb] at h
    · rintro ⟨hmode, a, ha, hne⟩
      simp [enforce_actor_binding, ha, hmode, hne]
  · intro _ ha
    simp [enforce_actor_binding, ha]
  · intro hmode
    match ha : identity.agent_id with
    | none => simp [enforce_actor_binding, ha]
    | some a =>
        have : ¬ (identity.auth_mode = "bearer" ∧ a ≠ workspace_id) := by
          rintro ⟨hb, _⟩
          rw [hmode] at hb
          exact absurd hb (by decide)
        simp [enforce_actor_binding, ha, this]

/-! ## C9 — empty-workspace SSE stream bound
(`beadhub/events.py`, `stream_events_multi`, empty `workspace_ids` branch) -/

/-- The keepalive SSE comment frame emitted by the stream. -/
def keepaliveFrame : String := ": keepalive\n\n"

/-- The empty-channel loop of `stream_events_multi`: with `remaining`
iterations left (starting from `max_keepalives - keepalive_count`), each
iteration polls `check_disconnected` (indexed by the poll number `i`),
returns if the client is gone, otherwise sleeps `keepalive_seconds` and
yields one keepalive comment.  `asyncio.sleep` is elided; the yielded frames
are collected in order. -/
def emptyStreamLoop (disconnected : Nat → Bool) : Nat → Nat → List String
  | _, 0 => []
  | i, remaining + 1 =>
      if disconnected i then []
      else keepaliveFrame :: emptyStreamLoop disconnected (i + 1) remaining

/-- `stream_events_multi` on an empty `workspace_ids` list: loops for at most
`max_keepalives = (5 * 60) / keepalive_seconds` keepalives (floor division),
checking the disconnect callback before each one. -/
def stream_events_multi_empty (keepalive_seconds : Nat)
    (disconnected : Nat → Bool) : List String :=
  emptyStreamLoop disconnected 0 ((5 * 60) / keepalive_seconds)

theorem emptyStreamLoop_mem (disconnected : Nat → Bool) :
    ∀ (remaining i : Nat) (s : String),
      s ∈ emptyStreamLoop disconnected i remaining → s = keepaliveFrame := by
  intro remaining
  induction remaining with
  | zero => intro i s h; simp [emptyStreamLoop] at h
  | succ n ih =>
      intro i s h
      by_cases hd : disconnected i
      · simp [emptyStreamLoop, hd] at h
      · simp only [emptyStreamLoop, hd, if_neg, Bool.false_eq_true,
          not_false_eq_true, List.mem_cons] at h
        rcases h with h | h
        · exact h
        · exact ih (i + 1) s h

theorem emptyStreamLoop_length (disconnected : Nat → Bool) :
    ∀ (remaining i : Nat),
      (emptyStreamLoop disconnected i remaining).length ≤ remaining := by
  intro remaining
  induction remaining with
  | zero => intro i; simp [emptyStreamLoop]
  | succ n ih =>
      intro i
      by_cases hd : disconnected i
      · simp [emptyStreamLoop, hd]
      · simpa [emptyStreamLoop, hd, Nat.succ_le_succ_iff] using ih (i + 1)

theorem emptyStreamLoop_stops (disconnected : Nat → Bool) :
    ∀ (remaining i k : Nat), disconnected (i + k) = true →
      (emptyStreamLoop disconnected i remaining).length ≤ k := by
  intro remaining
  induction remaining with
  | zero => intro i k _; simp [emptyStreamLoop]
  | succ n ih =>
      intro i k hk
      by_cases hd : disconnected i
      · simp [emptyStreamLoop, hd]
      · match k with
        | 0 =>
            exfalso
            rw [Nat.add_zero] at hk
            exact hd hk
        | k + 1 =>
            have := ih (i + 1) k (by
              have : i + 1 + k = i + (k + 1) := by omega
              rw [this]; exact hk)
            simpa [emptyStreamLoop, hd, Nat.succ_le_succ_iff] using this

/-- C9: a stream over an empty workspace list yields only
`": keepalive\n\n"` comments, at most `⌊300 / keepalive_seconds⌋` of them,
and stops no later than the first poll at which `check_disconnected`
reports the client gone. -/
theorem C9_empty_stream_bound (keepalive_seconds : Nat)
    (disconnected : Nat → Bool) (hpos : 0 < keepalive_seconds) :
    (∀ s ∈ stream_events_multi_empty keepalive_seconds disconnected,
        s = keepaliveFrame) ∧
    (stream_events_multi_empty keepalive_seconds disconnected).length ≤
        300 / keepalive_seconds ∧
    (∀ k, disconnected k = true →
      (stream_events_multi_empty keepalive_seconds disconnected).length ≤ k) := by
  refine ⟨?_, ?_, ?_⟩
  · intro s hs
    exact emptyStreamLoop_mem disconnected _ 0 s hs
  · exact emptyStreamLoop_length disconnected _ 0
  · intro k hk
    exact emptyStreamLoop_stops disconnected _ 0 k (by simpa using hk)

/-- C9 witness: with the default 30-second keepalive and a client that
disconnects at the fourth poll, the bound and frame shape are realised at a
concrete input. -/
theorem C9_empty_stream_bound_witness :
    0 < 30 ∧
    ((∀ s ∈ stream_events_multi_empty 30 (fun i => decide (3 ≤ i)),
        s = keepaliveFrame) ∧
     (stream_events_multi_empty 30 (fun i => decide (3 ≤ i))).length ≤ 300 / 30 ∧
     (∀ k, (fun i => decide (3 ≤ i)) k = true →
       (stream_events_multi_empty 30 (fun i => decide (3 ≤ i))).length ≤ k)) :=
  ⟨by decide, C9_empty_stream_bound 30 (fun i => decide (3 ≤ i)) (by decide)⟩

/-! ## C2 — proxy-path authentication
(`beadhub/internal_auth.py`, `parse_internal_auth_context` and
`_internal_auth_header_value`)

HMAC-SHA256 (hex digest) and Python `uuid.UUID` normalisation live outside
the modelled module; they enter as parameters `hmacHex : secret → msg → hex`
and `uuidNorm : raw → Option normalised` (`None` = `ValueError`).
`hmac.compare_digest` on the ASCII strings compared here is functionally
string equality (its constant-time execution is a timing property with no
functional content). -/

/-- The proxy headers consulted by `parse_internal_auth_context`:
`X-BH-Auth`, `X-Project-ID`, `X-User-ID`, `X-API-Key`, `X-Aweb-Actor-ID`.
`none` = header absent; `some ""` = present but empty (both falsy in
Python). -/
structure AuthRequest where
  x_bh_auth : Option String
  x_project_id : Option String
  x_user_id : Option String
  x_api_key : Option String
  x_aweb_actor_id : Option String
deriving Repr, DecidableEq

/-- The validated `InternalAuthContext` TypedDict. -/
structure InternalAuthContext where
  project_id : String
  principal_type : String
  principal_id : String
  actor_id : String
deriving Repr, DecidableEq

/-- Result of `parse_internal_auth_context`: `ignored` = Python `return
None`, `denied` = raised `HTTPException`, `accepted` = returned context. -/
inductive InternalAuthResult where
  | ignored
  | denied (status : Nat) (detail : String)
  | accepted (ctx : InternalAuthContext)
deriving Repr, DecidableEq

/-- Python truthiness of an optional header string. -/
def headerTruthy : Option String → Bool
  | none => false
  | some s => !s.isEmpty

/-- `_internal_auth_header_value`: the signed header is
`"v2:" + project_id + ":" + principal_type + ":" + principal_id + ":" +
actor_id` followed by `":"` and the hex HMAC-SHA256 of that message under
`secret`. -/
def internal_auth_header_value (hmacHex : String → String → String)
    (secret project_id principal_type principal_id actor_id : String) :
    String :=
  let msg := "v2:" ++ project_id ++ ":" ++ principal_type ++ ":" ++
    principal_id ++ ":" ++ actor_id
  let sig := hmacHex secret msg
  msg ++ ":" ++ sig

/-- Principal resolution inside `parse_internal_auth_context`: a truthy
`X-User-ID` must be a UUID (`principal_type = "u"`), otherwise a truthy
`X-API-Key` must be a UUID (`"k"`), otherwise the signed header itself may
carry a non-`u`/`k` principal type in its third colon-separated part
(e.g. `"p"` for public readers), with the fourth part as principal id.
`none` = 401. -/
def resolvePrincipal (uuidNorm : String → Option String)
    (internal_auth : String) (user_id api_key_id : Option String) :
    Option (String × String) :=
  if headerTruthy user_id then
    match uuidNorm (user_id.getD "") with
    | some u => some ("u", u)
    | none => none
  else if headerTruthy api_key_id then
    match uuidNorm (api_key_id.getD "") with
    | some k => some ("k", k)
    | none => none
  else
    let parts := internal_auth.splitOn ":"
    if 5 ≤ parts.length ∧ parts.getD 0 "" = "v2" ∧
        parts.getD 2 "" ≠ "u" ∧ parts.getD 2 "" ≠ "k" then
      some (parts.getD 2 "", parts.getD 3 "")
    else none

/-- `parse_internal_auth_context`: ignore requests without `X-BH-Auth`;
ignore (never trust) the header when no internal-auth secret is configured;
then require a UUID project id, a resolvable principal, a UUID actor id,
and a constant-time match of the supplied header against the recomputed
signed value.  Every failure is 401 "Authentication required". -/
def parse_internal_auth_context (hmacHex : String → String → String)
    (uuidNorm : String → Option String)
    (secret : Option String) (req : AuthRequest) : InternalAuthResult :=
  if headerTruthy req.x_bh_auth = false then .ignored
  else if headerTruthy secret = false then .ignored
  else
    let internal_auth := req.x_bh_auth.getD ""
    if headerTruthy req.x_project_id = false then
      .denied 401 "Authentication required"
    else
      match uuidNorm (req.x_project_id.getD "") with
      | none => .denied 401 "Authentication required"
      | some project_id =>
        match resolvePrincipal uuidNorm internal_auth req.x_user_id
            req.x_api_key with
        | none => .denied 401 "Authentication required"
        | some (principal_type, principal_id) =>
          if headerTruthy req.x_aweb_actor_id = false then
            .denied 401 "Authentication required"
          else
            match uuidNorm (req.x_aweb_actor_id.getD "") with
            | none => .denied 401 "Authentication required"
            | some actor_id =>
              if internal_auth = internal_auth_header_value hmacHex
                  (secret.getD "") project_id principal_type principal_id
                  actor_id then
                .accepted ⟨project_id, principal_type, principal_id, actor_id⟩
              else .denied 401 "Authentication required"

/-- C2: `parse_internal_auth_context` (1) returns `None` (never a trusted
context) exactly when the auth header is absent or no internal-auth secret
is configured; (2) accepts a context iff the supplied `X-BH-Auth` value
equals `"v2:project:ptype:pid:actor:"` followed by the HMAC-SHA256 hex of
`"v2:project:ptype:pid:actor"` under the secret, for the UUID-normalised
project and actor headers and the resolved principal; and (3) every other
outcome is a 401 with detail "Authentication required". -/
theorem C2_proxy_auth (hmacHex : String → String → String)
    (uuidNorm : String → Option String)
    (secret : Option String) (req : AuthRequest) :
    (parse_internal_auth_context hmacHex uuidNorm secret req = .ignored ↔
      (headerTruthy req.x_bh_auth = false ∨ headerTruthy secret = false)) ∧
    (∀ ctx : InternalAuthContext,
      parse_internal_auth_context hmacHex uuidNorm secret req =
          .accepted ctx ↔
        (headerTruthy req.x_bh_auth = true ∧ headerTruthy secret = true ∧
         headerTruthy req.x_project_id = true ∧
         uuidNorm (req.x_project_id.getD "") = some ctx.project_id ∧
         resolvePrincipal uuidNorm (req.x_bh_auth.getD "") req.x_user_id
             req.x_api_key = some (ctx.principal_type, ctx.principal_id) ∧
         headerTruthy req.x_aweb_actor_id = true ∧
         uuidNorm (req.x_aweb_actor_id.getD "") = some ctx.actor_id ∧
         req.x_bh_auth.getD "" = internal_auth_header_value hmacHex
           (secret.getD "") ctx.project_id ctx.principal_type
           ctx.principal_id ctx.actor_id)) ∧
    (∀ r, parse_internal_auth_context hmacHex uuidNorm secret req = r →
      r = .ignored ∨ (∃ ctx, r = .accepted ctx) ∨
        r = .denied 401 "Authentication required") := by
  by_cases h1 : headerTruthy req.x_bh_auth = false
  · refine ⟨by simp [parse_internal_auth_context, h1], fun ctx => ?_,
      fun r hr => ?_⟩
    · simp [parse_internal_auth_context, h1]
    · subst hr; simp [parse_internal_auth_context, h1]
  by_cases h2 : headerTruthy secret = false
  · refine ⟨by simp [parse_internal_auth_context, h1, h2], fun ctx => ?_,
      fun r hr => ?_⟩
    · simp [parse_internal_auth_context, h1, h2]
    · subst hr; simp [parse_internal_auth_context, h1, h2]
  simp only [Bool.not_eq_false] at h1 h2
  by_cases h3 : headerTruthy req.x_project_id = false
  · refine ⟨by simp [parse_internal_auth_context, h1, h2, h3],
      fun ctx => ?_, fun r hr => ?_⟩
    · simp [parse_internal_auth_context, h1, h2, h3]
    · subst hr; simp [parse_internal_auth_context, h1, h2, h3]
  simp only [Bool.not_eq_false] at h3
  cases hproj : uuidNorm (req.x_project_id.getD "") with
  | none =>
      refine ⟨by simp [parse_internal_auth_context, h1, h2, h3, hproj],
        fun ctx => ?_, fun r hr => ?_⟩
      · simp [parse_internal_auth_context, h1, h2, h3, hproj]
      · subst hr; simp [parse_internal_auth_context, h1, h2, h3, hproj]
  | some project_id =>
    cases hprin : resolvePrincipal uuidNorm (req.x_bh_auth.getD "")
        req.x_user_id req.x_api_key with
    | none =>
        refine ⟨by simp [parse_internal_auth_context, h1, h2, h3, hproj,
            hprin],
          fun ctx => ?_, fun r hr => ?_⟩
        · simp [parse_internal_auth_context, h1, h2, h3, hproj, hprin]
        · subst hr
          simp [parse_internal_auth_context, h1, h2, h3, hproj, hprin]
    | some pr =>
      obtain ⟨pt, pid⟩ := pr
      by_cases h4 : headerTruthy req.x_aweb_actor_id = false
      · refine ⟨by simp [parse_internal_auth_context, h1, h2, h3, hproj,
            hprin, h4],
          fun ctx => ?_, fun r hr => ?_⟩
        · simp [parse_internal_auth_context, h1, h2, h3, hproj, hprin, h4]
        · subst hr
          simp [parse_internal_auth_context, h1, h2, h3, hproj, hprin, h4]
      simp only [Bool.not_eq_false] at h4
      cases hact : uuidNorm (req.x_aweb_actor_id.getD "") with
      | none =>
          refine ⟨by simp [parse_internal_auth_context, h1, h2, h3, hproj,
              hprin, h4, hact],
            fun ctx => ?_, fun r hr => ?_⟩
          · simp [parse_internal_auth_context, h1, h2, h3, hproj, hprin,
              h4, hact]
          · subst hr
            simp [parse_internal_auth_context, h1, h2, h3, hproj, hprin,
              h4, hact]
      | some actor_id =>
        have hfin : parse_internal_auth_context hmacHex uuidNorm secret
            req =
            (if req.x_bh_auth.getD "" = internal_auth_header_value hmacHex
                (secret.getD "") project_id pt pid actor_id then
              .accepted ⟨project_id, pt, pid, actor_id⟩
            else .denied 401 "Authentication required") := by
          simp [parse_internal_auth_context, h1, h2, h3, hproj, hprin, h4,
            hact]
        refine ⟨?_, fun ctx => ?_, fun r hr => ?_⟩
        · rw [hfin]
          by_cases h5 : req.x_bh_auth.getD "" = internal_auth_header_value
              hmacHex (secret.getD "") project_id pt pid actor_id <;>
            simp [h5, h1, h2]
        · rw [hfin]
          by_cases h5 : req.x_bh_auth.getD "" = internal_auth_header_value
              hmacHex (secret.getD "") project_id pt pid actor_id
          · rw [if_pos h5]
            constructor
            · intro h
              simp only [InternalAuthResult.accepted.injEq] at h
              subst h
              exact ⟨h1, h2, h3, rfl, rfl, h4, rfl, h5⟩
            · rintro ⟨-, -, -, hproj', hprin', -, hact', hsig'⟩
              have e1 : project_id = ctx.project_id :=
                Option.some.inj hproj'
              have e2 : (pt, pid) = (ctx.principal_type, ctx.principal_id) :=
                Option.some.inj hprin'
              have e2a : pt = ctx.principal_type := congrArg Prod.fst e2
              have e2b : pid = ctx.principal_id := congrArg Prod.snd e2
              have e3 : actor_id = ctx.actor_id := Option.some.inj hact'
              rw [e1, e2a, e2b, e3]
          · rw [if_neg h5]
            constructor
            · intro h
              exact absurd h (by simp)
            · rintro ⟨-, -, -, hproj', hprin', -, hact', hsig'⟩
              have e1 : project_id = ctx.project_id :=
                Option.some.inj hproj'
              have e2 : (pt, pid) = (ctx.principal_type, ctx.principal_id) :=
                Option.some.inj hprin'
              have e2a : pt = ctx.principal_type := congrArg Prod.fst e2
              have e2b : pid = ctx.principal_id := congrArg Prod.snd e2
              have e3 : actor_id = ctx.actor_id := Option.some.inj hact'
              refine absurd ?_ h5
              rw [e1, e2a, e2b, e3]
              exact hsig'
        · rw [hfin] at hr
          by_cases h5 : req.x_bh_auth.getD "" = internal_auth_header_value
              hmacHex (secret.getD "") project_id pt pid actor_id
          · rw [if_pos h5] at hr
            exact Or.inr (Or.inl ⟨_, hr.symm⟩)
          · rw [if_neg h5] at hr
            exact Or.inr (Or.inr hr.symm)

/-! ## SQL data model

Rows of the `server` schema tables (`workspaces`, `repos`, `projects`,
`bead_claims`) and the `beads` schema table (`beads_issues`) used by the
claims coordinator and the workspace registry.  Timestamps are `Nat`
(`NOW()` is passed in explicitly); UUIDs are strings. -/

/-- A `server.bead_claims` row.  `(project_id, bead_id, workspace_id)` is
the `ON CONFLICT` key. -/
structure ClaimRow where
  project_id : String
  workspace_id : String
  «alias» : String
  human_name : String
  bead_id : String
  apex_bead_id : Option String
  apex_repo_name : Option String
  apex_branch : Option String
  claimed_at : Nat
deriving Repr, DecidableEq

/-- A `server.workspaces` row (the columns the modelled handlers touch). -/
structure WorkspaceRow where
  workspace_id : String
  project_id : String
  repo_id : Option String
  «alias» : String
  human_name : String
  role : Option String
  hostname : Option String
  workspace_path : Option String
  workspace_type : String
  current_branch : Option String
  last_seen_at : Option Nat
  focus_apex_bead_id : Option String
  focus_apex_repo_name : Option String
  focus_apex_branch : Option String
  focus_updated_at : Option Nat
  deleted_at : Option Nat
  updated_at : Option Nat
deriving Repr, DecidableEq

/-- The JSONB `parent_id` column of `beads_issues` as consumed by
`_resolve_claim_apex`: `nullv` covers SQL `NULL` and Python-falsy values
(the walk loop is not entered); `malformed` covers truthy values that fail
`json.loads` or are not objects (the loop breaks); `link` is an object,
with absent or empty `repo`/`branch`/`bead_id` keys both modelled as `""`
(`parent.get(k)` is falsy in either case). -/
inductive ParentField where
  | nullv
  | malformed
  | link (repo branch bead_id : String)
deriving Repr, DecidableEq

/-- A `beads.beads_issues` row (the columns the modelled code touches). -/
structure BeadRow where
  project_id : String
  repo : String
  branch : String
  bead_id : String
  title : Option String
  issue_type : Option String
  parent_id : ParentField
  synced_at : Nat
deriving Repr, DecidableEq

/-- A `server.repos` row. `(project_id, canonical_origin)` is unique. -/
structure RepoRow where
  id : String
  project_id : String
  origin_url : String
  canonical_origin : String
  name : String
  deleted_at : Option Nat
deriving Repr, DecidableEq

/-- A `server.projects` row. -/
structure ProjectRow where
  id : String
  slug : String
  name : Option String
  deleted_at : Option Nat
deriving Repr, DecidableEq

/-- The database state: one list per table, plus a counter standing in for
server-side id generation (`gen_random_uuid()` for new repo rows). -/
structure DB where
  projects : List ProjectRow
  repos : List RepoRow
  workspaces : List WorkspaceRow
  bead_claims : List ClaimRow
  beads_issues : List BeadRow
  next_id : Nat
deriving Repr, DecidableEq

/-- `ORDER BY ts DESC LIMIT 1`: a maximal row by `ts`, ties broken towards
the front of the list (SQL leaves tie order unspecified). -/
def pickLatest {α : Type} (ts : α → Nat) : List α → Option α
  | [] => none
  | r :: rest =>
      match pickLatest ts rest with
      | none => some r
      | some b => if ts b ≤ ts r then some r else some b

theorem pickLatest_eq_none {α : Type} (ts : α → Nat) (l : List α) :
    pickLatest ts l = none ↔ l = [] := by
  cases l with
  | nil => simp [pickLatest]
  | cons r rest =>
      simp only [pickLatest]
      constructor
      · intro h
        cases hp : pickLatest ts rest <;> rw [hp] at h
        · exact absurd h (by simp)
        · rename_i b
          by_cases hle : ts b ≤ ts r <;> simp [hle] at h
      · intro h
        exact absurd h (by simp)

theorem pickLatest_mem {α : Type} (ts : α → Nat) :
    ∀ (l : List α) (x : α), pickLatest ts l = some x → x ∈ l := by
  intro l
  induction l with
  | nil => intro x h; simp [pickLatest] at h
  | cons r rest ih =>
      intro x h
      simp only [pickLatest] at h
      cases hp : pickLatest ts rest <;> rw [hp] at h
      · simp at h
        simp [h]
      · rename_i b
        by_cases hle : ts b ≤ ts r
        · simp [hle] at h
          simp [h]
        · simp [hle] at h
          subst h
          exact List.mem_cons_of_mem r (ih b hp)

theorem pickLatest_max {α : Type} (ts : α → Nat) :
    ∀ (l : List α) (x : α), pickLatest ts l = some x →
      ∀ y ∈ l, ts y ≤ ts x := by
  intro l
  induction l with
  | nil => intro x h; simp [pickLatest] at h
  | cons r rest ih =>
      intro x h y hy
      simp only [pickLatest] at h
      cases hp : pickLatest ts rest <;> rw [hp] at h
      · have hrest : rest = [] := (pickLatest_eq_none ts rest).mp hp
        subst hrest
        simp only [Option.some.injEq] at h
        subst h
        simp at hy
        simp [hy]
      · rename_i b
        by_cases hle : ts b ≤ ts r
        · simp only [if_pos hle, Option.some.injEq] at h
          subst h
          rcases List.mem_cons.mp hy with hy | hy
          · simp [hy]
          · exact le_trans (ih b hp y hy) hle
        · simp only [if_neg hle, Option.some.injEq] at h
          subst h
          rcases List.mem_cons.mp hy with hy | hy
          · subst hy
            omega
          · exact ih b hp y hy

/-! ## Claims coordinator (`beadhub/routes/bdh.py`) -/

/-- The `SELECT … ORDER BY synced_at DESC LIMIT 1` fetch of a bead by
`(project_id, bead_id)` in `_resolve_claim_apex`. -/
def fetchBeadLatest (db : DB) (project_id bead_id : String) :
    Option BeadRow :=
  pickLatest (fun r => r.synced_at)
    (db.beads_issues.filter (fun r =>
      r.project_id = project_id ∧ r.bead_id = bead_id))

/-- The parent fetch by `(project_id, repo, branch, bead_id)` in
`_resolve_claim_apex` (`ORDER BY synced_at DESC LIMIT 1`). -/
def fetchBeadByKey (db : DB) (project_id repo branch bead_id : String) :
    Option BeadRow :=
  pickLatest (fun r => r.synced_at)
    (db.beads_issues.filter (fun r =>
      r.project_id = project_id ∧ r.repo = repo ∧ r.branch = branch ∧
        r.bead_id = bead_id))

/-- One iteration of the parent walk in `_resolve_claim_apex`: `none` when
the walk stops at `current` (falsy `parent_id`, malformed link, a missing
`repo`/`branch`/`bead_id` component, or no matching parent row). -/
def apexStep (db : DB) (project_id : String) (current : BeadRow) :
    Option BeadRow :=
  match current.parent_id with
  | .nullv => none
  | .malformed => none
  | .link prepo pbranch pbid =>
      if prepo = "" ∨ pbranch = "" ∨ pbid = "" then none
      else fetchBeadByKey db project_id prepo pbranch pbid

/-- The `while current.get("parent_id") and depth < max_depth` loop,
with `fuel = max_depth - depth` remaining iterations. -/
def walkApex (db : DB) (project_id : String) : Nat → BeadRow → BeadRow
  | 0, current => current
  | fuel + 1, current =>
      match apexStep db project_id current with
      | none => current
      | some parent => walkApex db project_id fuel parent

/-- `_resolve_claim_apex(db, project_id, bead_id, max_depth=20)`: returns
`(apex_bead_id, apex_repo_name, apex_branch)`, or `(None, None, None)` if
the bead is not in `beads_issues`. -/
def resolve_claim_apex (db : DB) (project_id bead_id : String)
    (max_depth : Nat := 20) :
    Option String × Option String × Option String :=
  match fetchBeadLatest db project_id bead_id with
  | none => (none, none, none)
  | some current =>
      let apex := walkApex db project_id max_depth current
      (some apex.bead_id, some apex.repo, some apex.branch)

/-- The conflicting-holder record returned by `_upsert_claim`. -/
structure ClaimHolder where
  workspace_id : String
  «alias» : String
  human_name : String
deriving Repr, DecidableEq

/-- `INSERT … ON CONFLICT (project_id, bead_id, workspace_id) DO UPDATE`:
replace the row with the conflict key, else append. -/
def upsertClaimRow (claims : List ClaimRow) (row : ClaimRow) :
    List ClaimRow :=
  if claims.any (fun c => c.project_id = row.project_id ∧
      c.bead_id = row.bead_id ∧ c.workspace_id = row.workspace_id) then
    claims.map (fun c =>
      if c.project_id = row.project_id ∧ c.bead_id = row.bead_id ∧
          c.workspace_id = row.workspace_id then row else c)
  else claims ++ [row]

theorem mem_upsertClaimRow (claims : List ClaimRow) (row c : ClaimRow)
    (h : c ∈ upsertClaimRow claims row) : c = row ∨ c ∈ claims := by
  unfold upsertClaimRow at h
  by_cases hc : claims.any (fun c => c.project_id = row.project_id ∧
      c.bead_id = row.bead_id ∧ c.workspace_id = row.workspace_id)
  · rw [if_pos hc] at h
    obtain ⟨c0, hc0, hmap⟩ := List.mem_map.mp h
    by_cases hm : c0.project_id = row.project_id ∧ c0.bead_id = row.bead_id ∧
        c0.workspace_id = row.workspace_id
    · simp only [hm, if_true] at hmap
      exact Or.inl hmap.symm
    · simp only [hm, if_false] at hmap
      exact Or.inr (hmap ▸ hc0)
  · rw [if_neg hc] at h
    rcases List.mem_append.mp h with h | h
    · exact Or.inr h
    · simp at h
      exact Or.inl h

/-- `_upsert_claim(db_infra, project_id, workspace_id, alias, human_name,
bead_id)`: resolve the apex, return the conflicting holder (no write) when
another workspace holds a claim on the bead, else upsert the claim row and
(when the apex is non-null) set the workspace's `focus_apex_*` fields. -/
def _upsert_claim (db : DB)
    (project_id workspace_id «alias» human_name bead_id : String)
    (now : Nat) : DB × Option ClaimHolder :=
  let apx := resolve_claim_apex db project_id bead_id
  let apex_bead_id := apx.1
  let apex_repo_name := apx.2.1
  let apex_branch := apx.2.2
  match db.bead_claims.find? (fun c => c.project_id = project_id ∧
      c.bead_id = bead_id ∧ c.workspace_id ≠ workspace_id) with
  | some existing =>
      (db, some ⟨existing.workspace_id, existing.«alias»,
        existing.human_name⟩)
  | none =>
      let row : ClaimRow :=
        ⟨project_id, workspace_id, «alias», human_name, bead_id,
          apex_bead_id, apex_repo_name, apex_branch, now⟩
      let db1 := { db with
        bead_claims := upsertClaimRow db.bead_claims row }
      let db2 :=
        if apex_bead_id.isSome then
          { db1 with workspaces := db1.workspaces.map (fun w =>
              if w.project_id = project_id ∧
                  w.workspace_id = workspace_id then
                { w with
                  focus_apex_bead_id := apex_bead_id
                  focus_apex_repo_name := apex_repo_name
                  focus_apex_branch := apex_branch
                  focus_updated_at := some now
                  updated_at := some now }
              else w) }
        else db1
      (db2, none)

/-- `_delete_claim(db_infra, project_id, workspace_id, bead_id)`: delete
the claim row, then point the workspace's `focus_apex_*` at the remaining
claim with the greatest `claimed_at` (or NULL when none remains), all in
one transaction. -/
def _delete_claim (db : DB) (project_id workspace_id bead_id : String)
    (now : Nat) : DB :=
  let claims1 := db.bead_claims.filter (fun c =>
    ¬(c.project_id = project_id ∧ c.workspace_id = workspace_id ∧
      c.bead_id = bead_id))
  let next_claim := pickLatest (fun c => c.claimed_at)
    (claims1.filter (fun c => c.project_id = project_id ∧
      c.workspace_id = workspace_id))
  { db with
    bead_claims := claims1
    workspaces := db.workspaces.map (fun w =>
      if w.project_id = project_id ∧ w.workspace_id = workspace_id then
        { w with
          focus_apex_bead_id := next_claim.bind (fun c => c.apex_bead_id)
          focus_apex_repo_name :=
            next_claim.bind (fun c => c.apex_repo_name)
          focus_apex_branch := next_claim.bind (fun c => c.apex_branch)
          focus_updated_at := some now
          updated_at := some now }
      else w) }

/-- Invariant: two live claims on the same `(project, bead)` belong to the
same workspace. -/
def claimExclusive (db : DB) : Prop :=
  ∀ c1 ∈ db.bead_claims, ∀ c2 ∈ db.bead_claims,
    c1.project_id = c2.project_id → c1.bead_id = c2.bead_id →
      c1.workspace_id = c2.workspace_id

theorem upsert_bead_claims_of_find_none (db : DB)
    (p w a h b : String) (now : Nat)
    (hfind : db.bead_claims.find? (fun c => c.project_id = p ∧
      c.bead_id = b ∧ c.workspace_id ≠ w) = none) :
    (_upsert_claim db p w a h b now).1.bead_claims =
      upsertClaimRow db.bead_claims
        ⟨p, w, a, h, b, (resolve_claim_apex db p b).1,
          (resolve_claim_apex db p b).2.1,
          (resolve_claim_apex db p b).2.2, now⟩ := by
  simp only [_upsert_claim, hfind]
  by_cases hsome : (resolve_claim_apex db p b).1.isSome <;> simp [hsome]

/-- C1: bead-claim exclusivity.  When another workspace already holds a
live claim on `(project_id, bead_id)`, `_upsert_claim` writes nothing (the
returned database state equals the input) and returns that holder's
`(workspace_id, alias, human_name)`; and both `_upsert_claim` and
`_delete_claim` preserve the invariant that two live claims on the same
bead of a project belong to the same workspace. -/
theorem C1_claim_exclusivity (db : DB)
    (p w a h b : String) (now delNow : Nat) :
    ((∃ c ∈ db.bead_claims, c.project_id = p ∧ c.bead_id = b ∧
        c.workspace_id ≠ w) →
      (_upsert_claim db p w a h b now).1 = db ∧
      ∃ c ∈ db.bead_claims, c.project_id = p ∧ c.bead_id = b ∧
        c.workspace_id ≠ w ∧
        (_upsert_claim db p w a h b now).2 =
          some ⟨c.workspace_id, c.«alias», c.human_name⟩) ∧
    (claimExclusive db →
      claimExclusive (_upsert_claim db p w a h b now).1) ∧
    (claimExclusive db →
      claimExclusive (_delete_claim db p w b delNow)) := by
  refine ⟨?_, ?_, ?_⟩
  · intro hex
    have hfind : (db.bead_claims.find? (fun c => c.project_id = p ∧
        c.bead_id = b ∧ c.workspace_id ≠ w)).isSome := by
      rw [List.find?_isSome]
      obtain ⟨c, hc, h1, h2, h3⟩ := hex
      exact ⟨c, hc, by simp [h1, h2, h3]⟩
    obtain ⟨e, he⟩ := Option.isSome_iff_exists.mp hfind
    have hmem := List.mem_of_find?_eq_some he
    have hpred := List.find?_some he
    simp only [decide_eq_true_eq] at hpred
    constructor
    · simp only [_upsert_claim, he]
    · exact ⟨e, hmem, hpred.1, hpred.2.1, hpred.2.2,
        by simp only [_upsert_claim, he]⟩
  · intro hinv
    cases hfind : db.bead_claims.find? (fun c => c.project_id = p ∧
        c.bead_id = b ∧ c.workspace_id ≠ w) with
    | some e =>
        have : (_upsert_claim db p w a h b now).1 = db := by
          simp only [_upsert_claim, hfind]
        rw [this]
        exact hinv
    | none =>
        have hall : ∀ c ∈ db.bead_claims, ¬(c.project_id = p ∧
            c.bead_id = b ∧ c.workspace_id ≠ w) := by
          intro c hc
          have := List.find?_eq_none.mp hfind c hc
          simpa using this
        have hbc := upsert_bead_claims_of_find_none db p w a h b now hfind
        intro c1 hc1 c2 hc2 hp hb
        rw [hbc] at hc1 hc2
        rcases mem_upsertClaimRow _ _ _ hc1 with h1 | h1 <;>
          rcases mem_upsertClaimRow _ _ _ hc2 with h2 | h2
        · rw [h1, h2]
        · subst h1
          by_cases hcw : c2.workspace_id = w
          · simpa using hcw.symm
          · exact absurd ⟨by simpa using hp.symm, by simpa using hb.symm,
              hcw⟩ (hall c2 h2)
        · subst h2
          by_cases hcw : c1.workspace_id = w
          · simpa using hcw
          · exact absurd ⟨by simpa using hp, by simpa using hb, hcw⟩
              (hall c1 h1)
        · exact hinv c1 h1 c2 h2 hp hb
  · intro hinv c1 hc1 c2 hc2 hp hb
    have hsub : (_delete_claim db p w b delNow).bead_claims =
        db.bead_claims.filter (fun c =>
          ¬(c.project_id = p ∧ c.workspace_id = w ∧ c.bead_id = b)) := rfl
    rw [hsub] at hc1 hc2
    exact hinv c1 (List.mem_of_mem_filter hc1) c2
      (List.mem_of_mem_filter hc2) hp hb

/-- A two-project database with one live claim, used to instantiate the
claim theorems at concrete inputs. -/
def dbClaimSample : DB :=
  { projects := [⟨"p1", "proj-one", none, none⟩]
    repos := []
    workspaces := [⟨"w1", "p1", some "r1", "ada", "Ada", none, none, none,
      "agent", none, some 1, none, none, none, none, none, some 1⟩,
      ⟨"w2", "p1", some "r1", "bob", "Bob", none, none, none,
      "agent", none, some 1, none, none, none, none, none, some 1⟩]
    bead_claims := [⟨"p1", "w1", "ada", "Ada", "bd-1", some "bd-0",
      some "origin/repo", some "main", 5⟩]
    beads_issues := []
    next_id := 0 }

theorem C1_claim_exclusivity_witness :
    ((_upsert_claim dbClaimSample "p1" "w2" "bob" "Bob" "bd-1" 10).1 =
        dbClaimSample ∧
      ∃ c ∈ dbClaimSample.bead_claims, c.project_id = "p1" ∧
        c.bead_id = "bd-1" ∧ c.workspace_id ≠ "w2" ∧
        (_upsert_claim dbClaimSample "p1" "w2" "bob" "Bob" "bd-1" 10).2 =
          some ⟨c.workspace_id, c.«alias», c.human_name⟩) ∧
    claimExclusive
      (_upsert_claim dbClaimSample "p1" "w2" "bob" "Bob" "bd-1" 10).1 ∧
    claimExclusive (_delete_claim dbClaimSample "p1" "w2" "bd-1" 11) := by
  have hth := C1_claim_exclusivity dbClaimSample "p1" "w2" "bob" "Bob"
    "bd-1" 10 11
  exact ⟨hth.1 (by decide), hth.2.1 (by unfold claimExclusive; decide),
    hth.2.2 (by unfold claimExclusive; decide)⟩

/-! ## C4 — apex resolution and apex stability -/

/-- `k` successful iterations of the parent walk. -/
def stepN (db : DB) (project_id : String) : Nat → BeadRow → Option BeadRow
  | 0, r => some r
  | k + 1, r => (apexStep db project_id r).bind (stepN db project_id k)

theorem walkApex_spec (db : DB) (p : String) :
    ∀ (fuel : Nat) (r : BeadRow),
      ∃ k ≤ fuel, stepN db p k r = some (walkApex db p fuel r) ∧
        (k = fuel ∨ apexStep db p (walkApex db p fuel r) = none) := by
  intro fuel
  induction fuel with
  | zero => intro r; exact ⟨0, Nat.le_refl 0, rfl, Or.inl rfl⟩
  | succ n ih =>
      intro r
      cases hstep : apexStep db p r with
      | none =>
          refine ⟨0, Nat.zero_le _, ?_, Or.inr ?_⟩
          · simp [walkApex, hstep, stepN]
          · simpa [walkApex, hstep] using hstep
      | some parent =>
          obtain ⟨k, hk, hs, hend⟩ := ih parent
          refine ⟨k + 1, Nat.succ_le_succ hk, ?_, ?_⟩
          · simpa [stepN, hstep, walkApex] using hs
          · rcases hend with hke | hnone
            · exact Or.inl (by omega)
            · exact Or.inr (by simpa [walkApex, hstep] using hnone)

/-- `row` itself ends up in the table after the upsert. -/
theorem self_mem_upsertClaimRow (claims : List ClaimRow) (row : ClaimRow) :
    row ∈ upsertClaimRow claims row := by
  unfold upsertClaimRow
  by_cases hc : claims.any (fun c => c.project_id = row.project_id ∧
      c.bead_id = row.bead_id ∧ c.workspace_id = row.workspace_id)
  · rw [if_pos hc]
    obtain ⟨c, hcmem, hcp⟩ := List.any_eq_true.mp hc
    refine List.mem_map.mpr ⟨c, hcmem, ?_⟩
    simp only [decide_eq_true_eq] at hcp
    simp [hcp]
  · rw [if_neg hc]
    simp

/-- One output row of `_build_workspace_claims_query` (the read path for
claims in team status): the claim's stored columns plus the lateral title
joins. -/
structure ClaimReadRow where
  workspace_id : String
  bead_id : String
  claimed_at : Nat
  apex_bead_id : Option String
  apex_repo_name : Option String
  apex_branch : Option String
  claim_title : Option String
  apex_title : Option String
  apex_type : Option String
deriving Repr, DecidableEq

/-- The claims read (`_build_workspace_claims_query` in
`routes/workspaces.py`): one row per `bead_claims` row whose
`workspace_id` is in `ids`, carrying the *stored* `apex_*` columns and the
two lateral `beads_issues` title joins (`ORDER BY synced_at DESC LIMIT 1`
each).  The SQL `ORDER BY c.workspace_id, c.claimed_at DESC` affects
presentation only and is not modelled. -/
def workspaceClaimsRead (db : DB) (ids : List String) :
    List ClaimReadRow :=
  (db.bead_claims.filter (fun c => ids.contains c.workspace_id)).map
    (fun c =>
      let claim_issue := fetchBeadLatest db c.project_id c.bead_id
      let apex_issue :=
        match c.apex_bead_id, c.apex_repo_name, c.apex_branch with
        | some ab, some ar, some abr =>
            fetchBeadByKey db c.project_id ar abr ab
        | _, _, _ => none
      { workspace_id := c.workspace_id
        bead_id := c.bead_id
        claimed_at := c.claimed_at
        apex_bead_id := c.apex_bead_id
        apex_repo_name := c.apex_repo_name
        apex_branch := c.apex_branch
        claim_title := claim_issue.bind (fun r => r.title)
        apex_title := apex_issue.bind (fun r => r.title)
        apex_type := apex_issue.bind (fun r => r.issue_type) })

/-- C4: apex resolution.  (1) A start bead missing from `beads_issues`
resolves to `(None, None, None)`.  (2) Otherwise the resolved apex is the
last bead reachable from the start by following parent links: some `k ≤ 20`
steps away, and either the walk hit the depth cut (`k = 20`) or the apex
has no reachable parent (parentless, malformed link, or missing parent
row).  (3) A successful `_upsert_claim` stores exactly this apex on the
claim row at claim time.  (4) The claims read path returns the stored
`apex_*` columns of each claim row, never recomputing the walk. -/
theorem C4_apex_resolution (db : DB) (p b w a h : String) (now : Nat)
    (ids : List String) :
    (fetchBeadLatest db p b = none →
      resolve_claim_apex db p b = (none, none, none)) ∧
    (∀ start, fetchBeadLatest db p b = some start →
      ∃ apexRow, resolve_claim_apex db p b =
          (some apexRow.bead_id, some apexRow.repo, some apexRow.branch) ∧
        ∃ k ≤ 20, stepN db p k start = some apexRow ∧
          (k = 20 ∨ apexStep db p apexRow = none)) ∧
    ((_upsert_claim db p w a h b now).2 = none →
      ∃ c ∈ (_upsert_claim db p w a h b now).1.bead_claims,
        c.project_id = p ∧ c.bead_id = b ∧ c.workspace_id = w ∧
        c.apex_bead_id = (resolve_claim_apex db p b).1 ∧
        c.apex_repo_name = (resolve_claim_apex db p b).2.1 ∧
        c.apex_branch = (resolve_claim_apex db p b).2.2 ∧
        c.claimed_at = now) ∧
    (∀ r ∈ workspaceClaimsRead db ids, ∃ c ∈ db.bead_claims,
      ids.contains c.workspace_id ∧ r.workspace_id = c.workspace_id ∧
      r.bead_id = c.bead_id ∧ r.apex_bead_id = c.apex_bead_id ∧
      r.apex_repo_name = c.apex_repo_name ∧
      r.apex_branch = c.apex_branch) := by
  refine ⟨?_, ?_, ?_, ?_⟩
  · intro hnone
    simp [resolve_claim_apex, hnone]
  · intro start hsome
    refine ⟨walkApex db p 20 start, ?_, ?_⟩
    · simp [resolve_claim_apex, hsome]
    · exact walkApex_spec db p 20 start
  · intro hres
    cases hfind : db.bead_claims.find? (fun c => c.project_id = p ∧
        c.bead_id = b ∧ c.workspace_id ≠ w) with
    | some e =>
        have : (_upsert_claim db p w a h b now).2 = some
            ⟨e.workspace_id, e.«alias», e.human_name⟩ := by
          simp only [_upsert_claim, hfind]
        rw [this] at hres
        exact absurd hres (by simp)
    | none =>
        have hbc := upsert_bead_claims_of_find_none db p w a h b now hfind
        refine ⟨⟨p, w, a, h, b, (resolve_claim_apex db p b).1,
          (resolve_claim_apex db p b).2.1,
          (resolve_claim_apex db p b).2.2, now⟩, ?_,
          rfl, rfl, rfl, rfl, rfl, rfl, rfl⟩
        rw [hbc]
        exact self_mem_upsertClaimRow _ _
  · intro r hr
    obtain ⟨c, hc, hmap⟩ := List.mem_map.mp hr
    have hcin := List.mem_of_mem_filter hc
    have hcid : ids.contains c.workspace_id := by
      have := List.of_mem_filter hc
      simpa using this
    exact ⟨c, hcin, hcid, by rw [← hmap], by rw [← hmap],
      by rw [← hmap], by rw [← hmap], by rw [← hmap]⟩

/-- A project with a three-level parent chain `A ← B ← C` and a workspace
`w1` holding claims on `B` and `C`; instantiates the apex and focus
theorems at concrete inputs. -/
def dbApexSample : DB :=
  { projects := [⟨"p1", "proj-one", none, none⟩]
    repos := [⟨"r1", "p1", "git@host:org/repo.git", "host/org/repo",
      "repo", none⟩]
    workspaces := [⟨"w1", "p1", some "r1", "ada", "Ada", none, none, none,
      "agent", none, some 1, some "old", some "old", some "old", some 1,
      none, some 1⟩]
    bead_claims := [⟨"p1", "w1", "ada", "Ada", "C", some "A",
      some "host/org/repo", some "main", 5⟩,
      ⟨"p1", "w1", "ada", "Ada", "B", some "A", some "host/org/repo",
      some "main", 3⟩]
    beads_issues := [
      ⟨"p1", "host/org/repo", "main", "A", some "epic A", some "epic",
        .nullv, 1⟩,
      ⟨"p1", "host/org/repo", "main", "B", some "feature B",
        some "feature", .link "host/org/repo" "main" "A", 2⟩,
      ⟨"p1", "host/org/repo", "main", "C", some "task C", some "task",
        .link "host/org/repo" "main" "B", 3⟩]
    next_id := 0 }

theorem C4_apex_resolution_witness :
    resolve_claim_apex dbApexSample "p1" "nonexistent" =
        (none, none, none) ∧
    (∃ apexRow, resolve_claim_apex dbApexSample "p1" "C" =
        (some apexRow.bead_id, some apexRow.repo, some apexRow.branch) ∧
      ∃ k ≤ 20, stepN dbApexSample "p1" k
          ⟨"p1", "host/org/repo", "main", "C", some "task C", some "task",
            .link "host/org/repo" "main" "B", 3⟩ = some apexRow ∧
        (k = 20 ∨ apexStep dbApexSample "p1" apexRow = none)) ∧
    (∃ c ∈ (_upsert_claim dbApexSample "p1" "w1" "ada" "Ada" "C"
        9).1.bead_claims,
      c.project_id = "p1" ∧ c.bead_id = "C" ∧ c.workspace_id = "w1" ∧
      c.apex_bead_id = (resolve_claim_apex dbApexSample "p1" "C").1 ∧
      c.apex_repo_name = (resolve_claim_apex dbApexSample "p1" "C").2.1 ∧
      c.apex_branch = (resolve_claim_apex dbApexSample "p1" "C").2.2 ∧
      c.claimed_at = 9) ∧
    (∀ r ∈ workspaceClaimsRead dbApexSample ["w1"],
      ∃ c ∈ dbApexSample.bead_claims,
        (["w1"] : List String).contains c.workspace_id ∧
        r.workspace_id = c.workspace_id ∧ r.bead_id = c.bead_id ∧
        r.apex_bead_id = c.apex_bead_id ∧
        r.apex_repo_name = c.apex_repo_name ∧
        r.apex_branch = c.apex_branch) := by
  refine ⟨?_, ?_, ?_, ?_⟩
  · exact (C4_apex_resolution dbApexSample "p1" "nonexistent" "w1" "ada"
      "Ada" 9 ["w1"]).1 (by decide)
  · exact (C4_apex_resolution dbApexSample "p1" "C" "w1" "ada" "Ada" 9
      ["w1"]).2.1 ⟨"p1", "host/org/repo", "main", "C", some "task C",
        some "task", .link "host/org/repo" "main" "B", 3⟩ (by decide)
  · exact (C4_apex_resolution dbApexSample "p1" "C" "w1" "ada" "Ada" 9
      ["w1"]).2.2.1 (by decide)
  · exact (C4_apex_resolution dbApexSample "p1" "C" "w1" "ada" "Ada" 9
      ["w1"]).2.2.2

/-! ## C7 — claim delete focus handoff -/

/-- C7: `_delete_claim` removes exactly the `(project_id, workspace_id,
bead_id)` claim row, and in the same transaction repoints the workspace's
`focus_apex_*` columns: to `NULL` when the workspace has no remaining
claims in the project, otherwise to the `apex_*` fields of the remaining
claim with the greatest `claimed_at`. -/
theorem C7_delete_claim_focus (db : DB) (p w b : String) (now : Nat) :
    (∀ c ∈ (_delete_claim db p w b now).bead_claims,
      ¬(c.project_id = p ∧ c.workspace_id = w ∧ c.bead_id = b)) ∧
    (∀ c ∈ db.bead_claims,
      ¬(c.project_id = p ∧ c.workspace_id = w ∧ c.bead_id = b) →
        c ∈ (_delete_claim db p w b now).bead_claims) ∧
    (∀ c ∈ (_delete_claim db p w b now).bead_claims,
      c ∈ db.bead_claims) ∧
    ((_delete_claim db p w b now).bead_claims.filter (fun c =>
        c.project_id = p ∧ c.workspace_id = w) = [] →
      ∀ wr ∈ (_delete_claim db p w b now).workspaces,
        wr.project_id = p → wr.workspace_id = w →
          wr.focus_apex_bead_id = none ∧
          wr.focus_apex_repo_name = none ∧
          wr.focus_apex_branch = none ∧ wr.focus_updated_at = some now) ∧
    (∀ chosen, pickLatest (fun c => c.claimed_at)
        ((_delete_claim db p w b now).bead_claims.filter (fun c =>
          c.project_id = p ∧ c.workspace_id = w)) = some chosen →
      chosen ∈ (_delete_claim db p w b now).bead_claims ∧
      chosen.project_id = p ∧ chosen.workspace_id = w ∧
      (∀ c ∈ (_delete_claim db p w b now).bead_claims,
        c.project_id = p → c.workspace_id = w →
          c.claimed_at ≤ chosen.claimed_at) ∧
      ∀ wr ∈ (_delete_claim db p w b now).workspaces,
        wr.project_id = p → wr.workspace_id = w →
          wr.focus_apex_bead_id = chosen.apex_bead_id ∧
          wr.focus_apex_repo_name = chosen.apex_repo_name ∧
          wr.focus_apex_branch = chosen.apex_branch ∧
          wr.focus_updated_at = some now) := by
  have hbc : (_delete_claim db p w b now).bead_claims =
      db.bead_claims.filter (fun c => ¬(c.project_id = p ∧
        c.workspace_id = w ∧ c.bead_id = b)) := rfl
  have hws : (_delete_claim db p w b now).workspaces =
      db.workspaces.map (fun wr =>
        if wr.project_id = p ∧ wr.workspace_id = w then
          { wr with
            focus_apex_bead_id :=
              (pickLatest (fun c => c.claimed_at)
                ((db.bead_claims.filter (fun c => ¬(c.project_id = p ∧
                  c.workspace_id = w ∧ c.bead_id = b))).filter (fun c =>
                  c.project_id = p ∧ c.workspace_id = w))).bind
                (fun c => c.apex_bead_id)
            focus_apex_repo_name :=
              (pickLatest (fun c => c.claimed_at)
                ((db.bead_claims.filter (fun c => ¬(c.project_id = p ∧
                  c.workspace_id = w ∧ c.bead_id = b))).filter (fun c =>
                  c.project_id = p ∧ c.workspace_id = w))).bind
                (fun c => c.apex_repo_name)
            focus_apex_branch :=
              (pickLatest (fun c => c.claimed_at)
                ((db.bead_claims.filter (fun c => ¬(c.project_id = p ∧
                  c.workspace_id = w ∧ c.bead_id = b))).filter (fun c =>
                  c.project_id = p ∧ c.workspace_id = w))).bind
                (fun c => c.apex_branch)
            focus_updated_at := some now
            updated_at := some now }
        else wr) := rfl
  refine ⟨?_, ?_, ?_, ?_, ?_⟩
  · intro c hc
    rw [hbc] at hc
    have hf := List.of_mem_filter hc
    exact of_decide_eq_true hf
  · intro c hc hne
    rw [hbc]
    exact List.mem_filter.mpr ⟨hc, decide_eq_true hne⟩
  · intro c hc
    rw [hbc] at hc
    exact List.mem_of_mem_filter hc
  · intro hempty wr hwr hwp hww
    rw [hbc] at hempty
    have hpick : pickLatest (fun c => c.claimed_at)
        ((db.bead_claims.filter (fun c => ¬(c.project_id = p ∧
          c.workspace_id = w ∧ c.bead_id = b))).filter (fun c =>
          c.project_id = p ∧ c.workspace_id = w)) = none := by
      rw [pickLatest_eq_none, hempty]
    rw [hws] at hwr
    obtain ⟨orig, _, hmap⟩ := List.mem_map.mp hwr
    by_cases hm : orig.project_id = p ∧ orig.workspace_id = w
    · rw [if_pos hm] at hmap
      subst hmap
      simp only [hpick]
      simp
    · rw [if_neg hm] at hmap
      subst hmap
      exact absurd ⟨hwp, hww⟩ hm
  · intro chosen hpick
    have hmem := pickLatest_mem _ _ _ hpick
    have hmax := pickLatest_max _ _ _ hpick
    have hprop := List.of_mem_filter hmem
    simp only [decide_eq_true_eq] at hprop
    refine ⟨by rw [hbc]; exact List.mem_of_mem_filter hmem, hprop.1,
      hprop.2, ?_, ?_⟩
    · intro c hc hcp hcw
      rw [hbc] at hc
      exact hmax c (List.mem_filter.mpr ⟨hc, by simp [hcp, hcw]⟩)
    · intro wr hwr hwp hww
      rw [hws] at hwr
      obtain ⟨orig, _, hmap⟩ := List.mem_map.mp hwr
      by_cases hm : orig.project_id = p ∧ orig.workspace_id = w
      · rw [if_pos hm] at hmap
        subst hmap
        rw [hbc] at hpick
        simp only [hpick]
        simp
      · rw [if_neg hm] at hmap
        subst hmap
        exact absurd ⟨hwp, hww⟩ hm

theorem C7_delete_claim_focus_witness :
    (∀ c ∈ (_delete_claim dbApexSample "p1" "w1" "C" 10).bead_claims,
      ¬(c.project_id = "p1" ∧ c.workspace_id = "w1" ∧ c.bead_id = "C")) ∧
    (∃ chosen, pickLatest (fun c => c.claimed_at)
        ((_delete_claim dbApexSample "p1" "w1" "C"
          10).bead_claims.filter (fun c =>
          c.project_id = "p1" ∧ c.workspace_id = "w1")) = some chosen ∧
      chosen ∈ (_delete_claim dbApexSample "p1" "w1" "C"
        10).bead_claims ∧
      (∀ c ∈ (_delete_claim dbApexSample "p1" "w1" "C" 10).bead_claims,
        c.project_id = "p1" → c.workspace_id = "w1" →
          c.claimed_at ≤ chosen.claimed_at) ∧
      ∀ wr ∈ (_delete_claim dbApexSample "p1" "w1" "C" 10).workspaces,
        wr.project_id = "p1" → wr.workspace_id = "w1" →
          wr.focus_apex_bead_id = chosen.apex_bead_id ∧
          wr.focus_apex_repo_name = chosen.apex_repo_name ∧
          wr.focus_apex_branch = chosen.apex_branch ∧
          wr.focus_updated_at = some 10) := by
  have hth := C7_delete_claim_focus dbApexSample "p1" "w1" "C" 10
  refine ⟨hth.1, ⟨⟨"p1", "w1", "ada", "Ada", "B", some "A",
    some "host/org/repo", some "main", 3⟩, by decide, ?_⟩⟩
  have := hth.2.2.2.2 ⟨"p1", "w1", "ada", "Ada", "B", some "A",
    some "host/org/repo", some "main", 3⟩ (by decide)
  exact ⟨this.1, this.2.2.2.1, this.2.2.2.2⟩

/-! ## Redis model and the presence store (`beadhub/presence.py`)

Redis state is split by value type: hashes (HSET/HGET), sets (SADD/SREM),
plain strings (SET/GET) and a TTL table (EXPIRE / SET … EX).  `urllib`'s
`quote` (used by `_safe_key_component`) and the role validators from the
`roles` module (whose source is outside the provided tree) enter as
parameters. -/

/-- One Redis hash. -/
abbrev RedisHash := List (String × String)

/-- The Redis keyspace. -/
structure RedisState where
  hashes : List (String × RedisHash)
  sets : List (String × List String)
  strings : List (String × String)
  ttls : List (String × Nat)
deriving Repr, DecidableEq

/-- `HSET key mapping={...}`: merge the given fields into the hash. -/
def hashSetMany (h : RedisHash) : List (String × String) → RedisHash
  | [] => h
  | (f, v) :: rest => hashSetMany (alistSet h f v) rest

/-- `HSET` on the keyspace. -/
def redisHset (rs : RedisState) (key : String)
    (fields : List (String × String)) : RedisState :=
  let newHash := hashSetMany ((alistGet rs.hashes key).getD []) fields
  { rs with hashes := alistSet rs.hashes key newHash }

/-- `HGET key field` (`None` when the key or field is absent). -/
def redisHget (rs : RedisState) (key f : String) : Option String :=
  (alistGet rs.hashes key).bind (fun h => alistGet h f)

/-- `HGETALL key` (empty hash when the key is absent). -/
def redisHgetall (rs : RedisState) (key : String) : RedisHash :=
  (alistGet rs.hashes key).getD []

/-- `EXPIRE key t`. -/
def redisExpire (rs : RedisState) (key : String) (t : Nat) : RedisState :=
  { rs with ttls := alistSet rs.ttls key t }

/-- `SADD key member`. -/
def redisSadd (rs : RedisState) (key member : String) : RedisState :=
  let old := (alistGet rs.sets key).getD []
  let upd := if member ∈ old then old else old ++ [member]
  { rs with sets := alistSet rs.sets key upd }

/-- `SREM key member`. -/
def redisSrem (rs : RedisState) (key member : String) : RedisState :=
  let upd := ((alistGet rs.sets key).getD []).filter (fun m => m ≠ member)
  { rs with sets := alistSet rs.sets key upd }

/-- `SET key value EX t`. -/
def redisSetEx (rs : RedisState) (key value : String) (t : Nat) :
    RedisState :=
  { rs with
    strings := alistSet rs.strings key value
    ttls := alistSet rs.ttls key t }

/-- `DEL key` (removes the key whatever its type, and its TTL). -/
def redisDel (rs : RedisState) (key : String) : RedisState :=
  { rs with
    hashes := alistDel rs.hashes key
    sets := alistDel rs.sets key
    strings := alistDel rs.strings key
    ttls := alistDel rs.ttls key }

/-- `_presence_key`. -/
def _presence_key (workspace_id : String) : String :=
  "presence:" ++ workspace_id

/-- `_project_workspaces_index_key`. -/
def _project_workspaces_index_key (project_id : String) : String :=
  "idx:project_workspaces:" ++ project_id

/-- `_repo_workspaces_index_key`. -/
def _repo_workspaces_index_key (repo_id : String) : String :=
  "idx:repo_workspaces:" ++ repo_id

/-- `_branch_workspaces_index_key` (branch URL-escaped via
`_safe_key_component = quote`). -/
def _branch_workspaces_index_key (quote : String → String)
    (repo_id branch : String) : String :=
  "idx:branch_workspaces:" ++ repo_id ++ ":" ++ quote branch

/-- `_project_slug_workspaces_index_key`. -/
def _project_slug_workspaces_index_key (quote : String → String)
    (project_slug : String) : String :=
  "idx:project_slug_workspaces:" ++ quote project_slug

/-- `_all_workspaces_index_key`. -/
def _all_workspaces_index_key : String := "idx:all_workspaces"

/-- `_alias_index_key`. -/
def _alias_index_key (quote : String → String)
    (project_id a : String) : String :=
  "idx:alias:" ++ project_id ++ ":" ++ quote a

/-- The `fields` mapping written by `update_agent_presence`: twelve columns
always present, then `canonical_origin` only when not `None`, `role` only
when not `None`, within the length bound and valid, and `timezone` only
when not `None`. -/
def presenceFields (roleMaxLen : Nat) (is_valid_role : String → Bool)
    (normalize_role : String → String)
    (workspace_id a : String) (program model : Option String)
    (human_name project_id project_slug repo_id : Option String)
    (member_email status : String) (current_branch : Option String)
    (role canonical_origin timezone : Option String) (now : String) :
    List (String × String) :=
  [("workspace_id", workspace_id), ("alias", a),
   ("human_name", human_name.getD ""), ("project_id", project_id.getD ""),
   ("project_slug", project_slug.getD ""), ("repo_id", repo_id.getD ""),
   ("member_email", member_email), ("program", program.getD ""),
   ("model", model.getD ""), ("status", status),
   ("current_branch", current_branch.getD ""), ("last_seen", now)] ++
  (match canonical_origin with
   | some co => [("canonical_origin", co)]
   | none => []) ++
  (match role with
   | some r =>
       if r.length ≤ roleMaxLen ∧ is_valid_role r then
         [("role", normalize_role r)]
       else []
   | none => []) ++
  (match timezone with
   | some tz => [("timezone", tz)]
   | none => [])

/-- `update_agent_presence`: write the presence hash and its TTL, then
refresh the secondary indices (`idx:all_workspaces` always; the project,
alias, slug, repo and branch indices when the corresponding value is
truthy), each with TTL `2 × ttl_seconds`.  Returns the updated keyspace
(the Python function returns the ISO timestamp `now`, which is passed in
here). -/
def update_agent_presence (roleMaxLen : Nat)
    (is_valid_role : String → Bool) (normalize_role : String → String)
    (quote : String → String) (rs : RedisState)
    (workspace_id a : String) (program model : Option String)
    (human_name project_id project_slug repo_id : Option String)
    (member_email : String) (status : String)
    (current_branch role canonical_origin timezone : Option String)
    (ttl_seconds : Nat) (now : String) : RedisState :=
  let key := _presence_key workspace_id
  let fields := presenceFields roleMaxLen is_valid_role normalize_role
    workspace_id a program model human_name project_id project_slug
    repo_id member_email status current_branch role canonical_origin
    timezone now
  let rs := redisHset rs key fields
  let rs := redisExpire rs key ttl_seconds
  let rs := redisSadd rs _all_workspaces_index_key workspace_id
  let rs := redisExpire rs _all_workspaces_index_key (ttl_seconds * 2)
  let rs :=
    if headerTruthy project_id then
      let idx := _project_workspaces_index_key (project_id.getD "")
      let rs := redisSadd rs idx workspace_id
      let rs := redisExpire rs idx (ttl_seconds * 2)
      redisSetEx rs (_alias_index_key quote (project_id.getD "") a)
        workspace_id (ttl_seconds * 2)
    else rs
  let rs :=
    if headerTruthy project_slug then
      let idx := _project_slug_workspaces_index_key quote
        (project_slug.getD "")
      redisExpire (redisSadd rs idx workspace_id) idx (ttl_seconds * 2)
    else rs
  let rs :=
    if headerTruthy repo_id then
      let idx := _repo_workspaces_index_key (repo_id.getD "")
      let rs := redisExpire (redisSadd rs idx workspace_id) idx
        (ttl_seconds * 2)
      if headerTruthy current_branch then
        let idx := _branch_workspaces_index_key quote (repo_id.getD "")
          (current_branch.getD "")
        redisExpire (redisSadd rs idx workspace_id) idx (ttl_seconds * 2)
      else rs
    else rs
  rs

/-- `clear_workspace_presence`: delete the presence keys and remove the
ids from `idx:all_workspaces` (the other indices are left to lazy
cleanup). -/
def clear_workspace_presence (rs : RedisState)
    (workspace_ids : List String) : RedisState :=
  if workspace_ids = [] then rs
  else
    let rs := workspace_ids.foldl
      (fun acc ws => redisDel acc (_presence_key ws)) rs
    workspace_ids.foldl
      (fun acc ws => redisSrem acc _all_workspaces_index_key ws) rs

theorem alistGet_hashSetMany :
    ∀ (fields : List (String × String)) (h : RedisHash) (f : String),
      alistGet (hashSetMany h fields) f =
        match fields.reverse.find? (fun p => p.1 = f) with
        | some p => some p.2
        | none => alistGet h f := by
  intro fields
  induction fields with
  | nil => intro h f; rfl
  | cons q rest ih =>
      intro h f
      obtain ⟨g, v⟩ := q
      simp only [hashSetMany, List.reverse_cons]
      rw [ih]
      cases hfind : rest.reverse.find? (fun p => p.1 = f) with
      | some p =>
          rw [List.find?_append, hfind]
          simp
      | none =>
          rw [List.find?_append, hfind]
          simp only [Option.none_orElse]
          rw [alistGet_alistSet]
          by_cases hg : g = f
          · simp [List.find?, hg]
          · have : ¬ f = g := fun he => hg he.symm
            simp [List.find?, hg, this]

theorem redisHget_redisHset (rs : RedisState) (key f : String)
    (fields : List (String × String)) :
    redisHget (redisHset rs key fields) key f =
      match fields.reverse.find? (fun p => p.1 = f) with
      | some p => some p.2
      | none => redisHget rs key f := by
  unfold redisHget redisHset
  simp only [alistGet_alistSet, if_true, Option.some_bind]
  rw [alistGet_hashSetMany]
  cases hfind : fields.reverse.find? (fun p => p.1 = f) with
  | some p => simp
  | none =>
      cases ho : alistGet rs.hashes key <;>
        simp [ho, alistGet, List.find?]

theorem update_agent_presence_hashes (roleMaxLen : Nat)
    (is_valid_role : String → Bool) (normalize_role : String → String)
    (quote : String → String) (rs : RedisState)
    (workspace_id a : String) (program model : Option String)
    (human_name project_id project_slug repo_id : Option String)
    (member_email : String) (status : String)
    (current_branch role canonical_origin timezone : Option String)
    (ttl_seconds : Nat) (now : String) :
    (update_agent_presence roleMaxLen is_valid_role normalize_role quote
      rs workspace_id a program model human_name project_id project_slug
      repo_id member_email status current_branch role canonical_origin
      timezone ttl_seconds now).hashes =
    (redisHset rs (_presence_key workspace_id)
      (presenceFields roleMaxLen is_valid_role normalize_role
        workspace_id a program model human_name project_id project_slug
        repo_id member_email status current_branch role canonical_origin
        timezone now)).hashes := by
  unfold update_agent_presence
  by_cases h1 : headerTruthy project_id <;>
    by_cases h2 : headerTruthy project_slug <;>
      by_cases h3 : headerTruthy repo_id <;>
        by_cases h4 : headerTruthy current_branch <;>
          simp only [h1, h2, h3, h4, if_true, if_false, Bool.false_eq_true,
            redisExpire, redisSadd, redisSetEx]

/-- C8: presence upsert preservation.  With `rs'` the keyspace after
`update_agent_presence`: a `None` `canonical_origin` or `timezone`, and a
`None`, over-length, or invalid `role`, leave the corresponding field of
the existing presence hash untouched (it is omitted from the written
mapping); while `alias`, `human_name`, `project_id`, `project_slug`,
`repo_id`, `program`, `model`, `status`, `current_branch` and `last_seen`
are always (over)written. -/
theorem C8_presence_upsert (roleMaxLen : Nat)
    (is_valid_role : String → Bool) (normalize_role : String → String)
    (quote : String → String) (rs : RedisState)
    (workspace_id a : String) (program model : Option String)
    (human_name project_id project_slug repo_id : Option String)
    (member_email : String) (status : String)
    (current_branch role canonical_origin timezone : Option String)
    (ttl_seconds : Nat) (now : String) (rs' : RedisState)
    (hrs' : rs' = update_agent_presence roleMaxLen is_valid_role
      normalize_role quote rs workspace_id a program model human_name
      project_id project_slug repo_id member_email status current_branch
      role canonical_origin timezone ttl_seconds now) :
    ((role = none ∨ ∃ r, role = some r ∧
        ¬(r.length ≤ roleMaxLen ∧ is_valid_role r = true)) →
      redisHget rs' (_presence_key workspace_id) "role" =
        redisHget rs (_presence_key workspace_id) "role") ∧
    (canonical_origin = none →
      redisHget rs' (_presence_key workspace_id) "canonical_origin" =
        redisHget rs (_presence_key workspace_id) "canonical_origin") ∧
    (timezone = none →
      redisHget rs' (_presence_key workspace_id) "timezone" =
        redisHget rs (_presence_key workspace_id) "timezone") ∧
    redisHget rs' (_presence_key workspace_id) "alias" = some a ∧
    redisHget rs' (_presence_key workspace_id) "human_name" =
      some (human_name.getD "") ∧
    redisHget rs' (_presence_key workspace_id) "project_id" =
      some (project_id.getD "") ∧
    redisHget rs' (_presence_key workspace_id) "project_slug" =
      some (project_slug.getD "") ∧
    redisHget rs' (_presence_key workspace_id) "repo_id" =
      some (repo_id.getD "") ∧
    redisHget rs' (_presence_key workspace_id) "program" =
      some (program.getD "") ∧
    redisHget rs' (_presence_key workspace_id) "model" =
      some (model.getD "") ∧
    redisHget rs' (_presence_key workspace_id) "status" = some status ∧
    redisHget rs' (_presence_key workspace_id) "current_branch" =
      some (current_branch.getD "") ∧
    redisHget rs' (_presence_key workspace_id) "last_seen" = some now := by
  have hh := update_agent_presence_hashes roleMaxLen is_valid_role
    normalize_role quote rs workspace_id a program model human_name
    project_id project_slug repo_id member_email status current_branch
    role canonical_origin timezone ttl_seconds now
  have hget : ∀ f, redisHget rs' (_presence_key workspace_id) f =
      redisHget (redisHset rs (_presence_key workspace_id)
        (presenceFields roleMaxLen is_valid_role normalize_role
          workspace_id a program model human_name project_id project_slug
          repo_id member_email status current_branch role canonical_origin
          timezone now)) (_presence_key workspace_id) f := by
    intro f
    rw [hrs']
    unfold redisHget
    rw [hh]
  refine ⟨?_, ?_, ?_, ?_, ?_, ?_, ?_, ?_, ?_, ?_, ?_, ?_, ?_⟩
  · intro habs
    rw [hget, redisHget_redisHset]
    rcases habs with hno | ⟨r, hr, hbad⟩
    · subst hno
      rcases canonical_origin with _ | co <;> rcases timezone with _ | tz <;>
        simp [presenceFields, List.find?]
    · subst hr
      rcases canonical_origin with _ | co <;> rcases timezone with _ | tz <;>
        simp [presenceFields, List.find?, hbad]
  · intro hco
    subst hco
    rw [hget, redisHget_redisHset]
    rcases role with _ | r
    · rcases timezone with _ | tz <;> simp [presenceFields, List.find?]
    · by_cases hrv : r.length ≤ roleMaxLen ∧ is_valid_role r = true <;>
        rcases timezone with _ | tz <;>
          simp [presenceFields, List.find?, hrv]
  · intro htz
    subst htz
    rw [hget, redisHget_redisHset]
    rcases role with _ | r
    · rcases canonical_origin with _ | co <;>
        simp [presenceFields, List.find?]
    · by_cases hrv : r.length ≤ roleMaxLen ∧ is_valid_role r = true <;>
        rcases canonical_origin with _ | co <;>
          simp [presenceFields, List.find?, hrv]
  all_goals
    rw [hget, redisHget_redisHset]
    rcases role with _ | r
    · rcases canonical_origin with _ | co <;>
        rcases timezone with _ | tz <;>
          simp [presenceFields, List.find?]
    · by_cases hrv : r.length ≤ roleMaxLen ∧ is_valid_role r = true <;>
        rcases canonical_origin with _ | co <;>
          rcases timezone with _ | tz <;>
            simp [presenceFields, List.find?, hrv]

theorem C8_presence_upsert_witness :
    (redisHget (update_agent_presence 50 (fun _ => true) (fun r => r)
        (fun s => s)
        ⟨[("presence:w1", [("role", "builder"), ("timezone", "UTC"),
          ("canonical_origin", "host/org/repo")])], [], [], []⟩
        "w1" "ada" (some "bdh") none (some "Ada") (some "p1")
        (some "proj-one") (some "r1") "" "active" (some "main") none none
        none 1800 "t0")
      (_presence_key "w1") "role" =
      redisHget ⟨[("presence:w1", [("role", "builder"), ("timezone", "UTC"),
          ("canonical_origin", "host/org/repo")])], [], [], []⟩
        (_presence_key "w1") "role") ∧
    redisHget (update_agent_presence 50 (fun _ => true) (fun r => r)
        (fun s => s)
        ⟨[("presence:w1", [("role", "builder"), ("timezone", "UTC"),
          ("canonical_origin", "host/org/repo")])], [], [], []⟩
        "w1" "ada" (some "bdh") none (some "Ada") (some "p1")
        (some "proj-one") (some "r1") "" "active" (some "main") none none
        none 1800 "t0")
      (_presence_key "w1") "alias" = some "ada" := by
  have hth := C8_presence_upsert 50 (fun _ => true) (fun r => r)
    (fun s => s)
    ⟨[("presence:w1", [("role", "builder"), ("timezone", "UTC"),
      ("canonical_origin", "host/org/repo")])], [], [], []⟩
    "w1" "ada" (some "bdh") none (some "Ada") (some "p1")
    (some "proj-one") (some "r1") "" "active" (some "main") none none
    none 1800 "t0" _ rfl
  exact ⟨hth.1 (Or.inl rfl), hth.2.2.2.1⟩

/-! ## Workspace registry (`beadhub/routes/workspaces.py` and the helpers
it imports from `beadhub/routes/bdh.py`)

`canonicalize_git_url` / `extract_repo_name` live in `routes/repos.py`
(outside the provided tree) and enter as parameters `canon : url →
Option canonical` (`none` = `ValueError`) and `extract_name`. -/

/-- Modelled from the spec: the `workspaces` table carries a partial
unique index on `(project_id, alias)` over live (`deleted_at IS NULL`)
rows — invariant "for every project, among live workspaces, `alias` is
unique", surfaced in the handlers as
`asyncpg.exceptions.UniqueViolationError`.  The index file itself
(migrations) is not under the provided sources.  This predicate decides
whether making a `(project_id, alias)` row live conflicts with another
live row. -/
def aliasIndexConflict (workspaces : List WorkspaceRow)
    (project_id a workspace_id : String) : Bool :=
  workspaces.any (fun w => w.project_id = project_id ∧ w.«alias» = a ∧
    w.deleted_at = none ∧ w.workspace_id ≠ workspace_id)

/-- `ensure_repo(db, project_id, origin_url)` (`routes/bdh.py`):
`INSERT … ON CONFLICT (project_id, canonical_origin) DO UPDATE SET
origin_url = EXCLUDED.origin_url, deleted_at = NULL RETURNING id`.
`none` = the `ValueError` from `canonicalize_git_url` (propagates).
Fresh ids come from the `next_id` counter (`gen_random_uuid()`). -/
def ensure_repo (canon : String → Option String)
    (extract_name : String → String) (db : DB)
    (project_id origin_url : String) : Option (DB × String) :=
  match canon origin_url with
  | none => none
  | some canonical =>
      let name := extract_name canonical
      match db.repos.find? (fun r => r.project_id = project_id ∧
          r.canonical_origin = canonical) with
      | some r =>
          some ({ db with repos := db.repos.map (fun r2 =>
            if r2.project_id = project_id ∧
                r2.canonical_origin = canonical then
              { r2 with origin_url := origin_url, deleted_at := none }
            else r2) }, r.id)
      | none =>
          let rid := "repo-" ++ toString db.next_id
          some ({ db with
            repos := db.repos ++
              [⟨rid, project_id, origin_url, canonical, name, none⟩]
            next_id := db.next_id + 1 }, rid)

/-- `upsert_workspace` (`routes/bdh.py`): `INSERT … ON CONFLICT
(workspace_id) DO UPDATE SET human_name, role = COALESCE(EXCLUDED.role,
old.role), hostname = COALESCE(old.hostname, EXCLUDED.hostname),
workspace_path = COALESCE(old.workspace_path, EXCLUDED.workspace_path),
last_seen_at = NOW(), updated_at = NOW()`.  `none` = unique violation of
the live-alias index on the insert path (`workspace_type` takes its column
default `"agent"`). -/
def upsert_workspace (db : DB)
    (workspace_id project_id repo_id a human_name : String)
    (role hostname workspace_path : Option String) (now : Nat) :
    Option DB :=
  match db.workspaces.find? (fun w => w.workspace_id = workspace_id) with
  | some _ =>
      some { db with workspaces := db.workspaces.map (fun w =>
        if w.workspace_id = workspace_id then
          { w with
            human_name := human_name
            role := match role with
              | some r => some r
              | none => w.role
            hostname := match w.hostname with
              | some hh => some hh
              | none => hostname
            workspace_path := match w.workspace_path with
              | some pp => some pp
              | none => workspace_path
            last_seen_at := some now
            updated_at := some now }
        else w) }
  | none =>
      if aliasIndexConflict db.workspaces project_id a workspace_id then
        none
      else
        some { db with workspaces := db.workspaces ++
          [⟨workspace_id, project_id, some repo_id, a, human_name, role,
            hostname, workspace_path, "agent", none, some now, none, none,
            none, none, none, some now⟩] }

/-- `get_workspace_id_by_alias` (`presence.py`): O(1) alias lookup via the
alias index key, returning `None` for a missing or falsy entry and lazily
deleting the index key when the presence hash behind it has expired. -/
def get_workspace_id_by_alias (rs : RedisState)
    (quote : String → String) (project_id a : String) :
    Option String × RedisState :=
  let idx := _alias_index_key quote project_id a
  match alistGet rs.strings idx with
  | none => (none, rs)
  | some ws =>
      if ws = "" then (none, rs)
      else if alistGet rs.hashes (_presence_key ws) = none then
        (none, redisDel rs idx)
      else (some ws, rs)

/-- `check_alias_collision` (`routes/bdh.py`): the workspaces table first,
then `bead_claims` (race window), then the Redis alias index.  Returns the
colliding workspace id, if any, together with the possibly lazily-cleaned
Redis state. -/
def check_alias_collision (db : DB) (rs : RedisState)
    (quote : String → String)
    (project_id workspace_id a : String) :
    Option String × RedisState :=
  match db.workspaces.find? (fun w => w.project_id = project_id ∧
      w.«alias» = a ∧ w.workspace_id ≠ workspace_id ∧
      w.deleted_at = none) with
  | some row => (some row.workspace_id, rs)
  | none =>
      match db.bead_claims.find? (fun c => c.project_id = project_id ∧
          c.«alias» = a ∧ c.workspace_id ≠ workspace_id) with
      | some row => (some row.workspace_id, rs)
      | none =>
          match get_workspace_id_by_alias rs quote project_id a with
          | (some ws, rs2) =>
              if ws ≠ workspace_id then (some ws, rs2) else (none, rs2)
          | (none, rs2) => (none, rs2)

/-- Response of `DELETE /v1/workspaces/{workspace_id}`. -/
structure DeleteWorkspaceResponse where
  workspace_id : String
  «alias» : String
  deleted_at : Nat
deriving Repr, DecidableEq

/-- Result of a handler that owns both stores: the database and the Redis
keyspace at return time accompany either the response or the HTTP error
(each SQL statement commits on its own here — there is no enclosing
transaction). -/
inductive StateResult (α : Type) where
  | ok (db : DB) (rs : RedisState) (value : α)
  | httpError (db : DB) (rs : RedisState) (status : Nat) (detail : String)
deriving Repr, DecidableEq

/-- `delete_workspace` (`routes/workspaces.py`): soft-delete a workspace
of the caller's project (404 when absent or already deleted), then delete
every `bead_claims` row of that workspace.  The handler takes no Redis
dependency: presence is not touched. -/
def delete_workspace (db : DB) (rs : RedisState)
    (project_id workspace_id : String) (now : Nat) :
    StateResult DeleteWorkspaceResponse :=
  match db.workspaces.find? (fun w => w.workspace_id = workspace_id ∧
      w.project_id = project_id) with
  | none =>
      .httpError db rs 404 ("Workspace " ++ workspace_id ++ " not found")
  | some existing =>
      if existing.deleted_at.isSome then
        .httpError db rs 404
          ("Workspace " ++ workspace_id ++ " is already deleted")
      else
        let newws := db.workspaces.map
          (fun (w : WorkspaceRow) =>
            if w.workspace_id = workspace_id then
              { w with deleted_at := some now }
            else w)
        let db1 := { db with workspaces := newws }
        let remclaims := db1.bead_claims.filter
          (fun (c : ClaimRow) => ¬(c.workspace_id = workspace_id))
        let db2 := { db1 with bead_claims := remclaims }
        .ok db2 rs ⟨workspace_id, existing.«alias», now⟩

/-- Python `str.strip()`: drop leading and trailing whitespace
(kernel-computable, unlike `String.trim`). -/
def pyStrip (s : String) : String :=
  String.mk
    (((s.data.dropWhile Char.isWhitespace).reverse.dropWhile
      Char.isWhitespace).reverse)

/-- `_cascade_agent_deregistered` (`mutation_hooks.py`): on
`agent.deregistered`, soft-delete the workspace whose id equals the agent
id (skipping blank or non-UUID ids and missing/already-deleted
workspaces), delete its bead claims in the same transaction, then clear
its Redis presence.  `isUUID` models `uuid.UUID` acceptance. -/
def _cascade_agent_deregistered (isUUID : String → Bool)
    (db : DB) (rs : RedisState) (ctx_agent_id : Option String)
    (now : Nat) : DB × RedisState :=
  let agent_id := pyStrip (ctx_agent_id.getD "")
  if agent_id = "" then (db, rs)
  else if ¬ isUUID agent_id then (db, rs)
  else
    match db.workspaces.find? (fun w => w.workspace_id = agent_id ∧
        w.deleted_at = none) with
    | none => (db, rs)
    | some _ =>
        let newws := db.workspaces.map
          (fun (w : WorkspaceRow) =>
            if w.workspace_id = agent_id then
              { w with deleted_at := some now }
            else w)
        let db1 := { db with workspaces := newws }
        let remclaims := db1.bead_claims.filter
          (fun (c : ClaimRow) => ¬(c.workspace_id = agent_id))
        let db2 := { db1 with bead_claims := remclaims }
        (db2, clear_workspace_presence rs [agent_id])

/-- The validated body of `POST /v1/workspaces/heartbeat` (pydantic
validation of formats happens before the handler runs). -/
structure WorkspaceHeartbeatRequest where
  workspace_id : String
  «alias» : String
  repo_origin : String
  role : Option String
  current_branch : Option String
  hostname : Option String
  workspace_path : Option String
  human_name : Option String
deriving Repr, DecidableEq

/-- The heartbeat immutability pre-check ("Pre-check immutability to avoid
leaking DB trigger errors as 500s"): for an existing workspace row, reject
soft-deleted (410), then wrong project (400), then alias mismatch (409);
the 400/409 guards skip falsy stored values as the source's
`existing.get(...) and ...` does. -/
def heartbeat_precheck (project_id : String)
    (payload : WorkspaceHeartbeatRequest) :
    Option WorkspaceRow → Option (Nat × String)
  | none => none
  | some existing =>
      if existing.deleted_at.isSome then
        some (410,
          "Workspace was deleted. Run \x27bdh :init\x27 to re-register.")
      else if existing.project_id ≠ "" ∧
          existing.project_id ≠ project_id then
        some (400, "Workspace " ++ payload.workspace_id ++
          " does not belong to this project. This may indicate a corrupted .beadhub file. Try running \x27bdh :init\x27 again.")
      else if existing.«alias» ≠ "" ∧
          existing.«alias» ≠ payload.«alias» then
        some (409, "Alias mismatch for workspace " ++
          payload.workspace_id ++ " (expected \x27" ++ existing.«alias» ++
          "\x27, got \x27" ++ payload.«alias» ++
          "\x27). Run \x27bdh :init\x27 to re-register.")
      else none

/-- The no-bound-repo path of the heartbeat ("else" branch): alias
collision check (409) and `ensure_repo`.  `Sum.inl` = early HTTP return,
`Sum.inr` = `(db, redis, repo_id)` to continue with. -/
def heartbeat_new_repo (canon : String → Option String)
    (extract_name : String → String) (quote : String → String)
    (db : DB) (rs : RedisState) (project_id : String)
    (payload : WorkspaceHeartbeatRequest) :
    StateResult String ⊕ (DB × RedisState × String) :=
  match check_alias_collision db rs quote project_id payload.workspace_id
      payload.«alias» with
  | (some _, rs2) =>
      Sum.inl (.httpError db rs2 409 ("Alias \x27" ++ payload.«alias» ++
        "\x27 is already used by another workspace in this project. Please choose a different alias and run \x27bdh :init\x27 again."))
  | (none, rs2) =>
      match ensure_repo canon extract_name db project_id
          payload.repo_origin with
      | none => Sum.inl (.httpError db rs2 422 "Invalid repo_origin")
      | some (db2, rid) => Sum.inr (db2, rs2, rid)

/-- `POST /v1/workspaces/heartbeat`: actor binding, the immutability
pre-checks before any write, repo resolution (bound repo must exist, be
live and match the canonicalised origin — 410/400 — otherwise alias
collision check and `ensure_repo`), then `upsert_workspace` (alias unique
violation → 409), the optional `current_branch` update, the project slug
fetch and the presence writes (`update_agent_presence`, then the external
aweb agent presence, modelled by the `update_aweb` parameter; usage
metering is Cloud-only and absent in the modelled standalone mode).  Each
SQL statement commits independently — there is no enclosing
transaction. -/
def heartbeat (canon : String → Option String)
    (extract_name : String → String) (quote : String → String)
    (roleMaxLen : Nat) (is_valid_role : String → Bool)
    (normalize_role : String → String)
    (update_aweb : RedisState → String → String → String → Nat →
      RedisState)
    (identity : AuthIdentity) (identity_project : String)
    (presence_ttl : Nat) (db : DB) (rs : RedisState)
    (payload : WorkspaceHeartbeatRequest) (now : Nat) (nowIso : String) :
    StateResult String :=
  match enforce_actor_binding identity payload.workspace_id with
  | .httpError st d => .httpError db rs st d
  | .ok _ =>
    let project_id := identity_project
    let existing := db.workspaces.find? (fun w =>
      w.workspace_id = payload.workspace_id)
    match heartbeat_precheck project_id payload existing with
    | some (st, d) => .httpError db rs st d
    | none =>
      let repoStep : StateResult String ⊕ (DB × RedisState × String) :=
        match existing with
        | some ex =>
            match ex.repo_id with
            | some rid =>
                match canon payload.repo_origin with
                | none =>
                    Sum.inl (.httpError db rs 422 "Invalid repo_origin")
                | some canonical =>
                    match db.repos.find? (fun r => r.id = rid ∧
                        r.project_id = project_id ∧
                        r.deleted_at = none) with
                    | none =>
                        Sum.inl (.httpError db rs 410
                          "Workspace repository was deleted. Run \x27bdh :init\x27 to re-register.")
                    | some repo_row =>
                        if repo_row.canonical_origin ≠ canonical then
                          Sum.inl (.httpError db rs 400
                            "Repo mismatch: workspace is registered with a different repository. This may indicate a corrupted .beadhub file. Run \x27bdh :init\x27 again.")
                        else Sum.inr (db, rs, rid)
            | none =>
                heartbeat_new_repo canon extract_name quote db rs
                  project_id payload
        | none =>
            heartbeat_new_repo canon extract_name quote db rs project_id
              payload
      match repoStep with
      | Sum.inl err => err
      | Sum.inr (db2, rs2, rid) =>
          match upsert_workspace db2 payload.workspace_id project_id rid
              payload.«alias» (payload.human_name.getD "") payload.role
              payload.hostname payload.workspace_path now with
          | none =>
              .httpError db2 rs2 409 ("Alias \x27" ++ payload.«alias» ++
                "\x27 is already used by another workspace in this project. Please choose a different alias and run \x27bdh :init\x27 again.")
          | some db3 =>
              let db4 := match payload.current_branch with
                | some cb =>
                    let newws := db3.workspaces.map
                      (fun (w : WorkspaceRow) =>
                        if w.workspace_id = payload.workspace_id then
                          { w with
                            current_branch := some cb
                            last_seen_at := some now }
                        else w)
                    { db3 with workspaces := newws }
                | none => db3
              let slug := match db4.projects.find? (fun pr =>
                  pr.id = project_id) with
                | some pr => some pr.slug
                | none => none
              let rs3 := update_agent_presence roleMaxLen is_valid_role
                normalize_role quote rs2 payload.workspace_id
                payload.«alias» (some "bdh") none
                (some (payload.human_name.getD "")) (some project_id)
                slug (some rid) "" "active" payload.current_branch
                payload.role none none presence_ttl nowIso
              let rs4 := update_aweb rs3 payload.workspace_id
                payload.«alias» project_id presence_ttl
              .ok db4 rs4 payload.workspace_id

/-- Identity material resolved from aweb (`resolve_aweb_identity`) for
`register_workspace`: `workspace_id = agent_id` (v1 mapping). -/
structure AwebIdentity where
  project_id : String
  agent_id : String
  «alias» : String
  human_name : String
  project_slug : String
  project_name : Option String
deriving Repr, DecidableEq

/-- The body of `POST /v1/workspaces/register`. -/
structure RegisterWorkspaceRequest where
  repo_origin : String
  hostname : Option String
  workspace_path : Option String
  role : Option String
deriving Repr, DecidableEq

/-- Outcome of `register_workspace`.  The order of an `HTTPException`
raised inside `async with server_db.transaction()` is: the transaction is
rolled back, so error constructors carry the caller's unchanged database.
`dbError` is an uncaught `QueryError` (a 500), also rolled back. -/
inductive RegisterResult where
  | ok (db : DB) (created : Bool)
  | httpError (db : DB) (status : Nat) (detail : String)
  | dbError (db : DB)
deriving Repr, DecidableEq

/-- The project and repo upserts at the top of the `register_workspace`
transaction: `projects` `ON CONFLICT (id) DO UPDATE SET slug, name,
deleted_at = NULL`; `repos` `ON CONFLICT (project_id, canonical_origin)
DO UPDATE SET origin_url, deleted_at = NULL RETURNING id`. -/
def register_project_repo (db : DB) (project_id slug : String)
    (pname : Option String) (origin_url canonical repo_name : String) :
    DB × String :=
  let db1 :=
    if db.projects.any (fun pr => pr.id = project_id) then
      { db with projects := db.projects.map (fun (pr : ProjectRow) =>
        if pr.id = project_id then
          { pr with slug := slug, name := pname, deleted_at := none }
        else pr) }
    else
      { db with projects :=
          db.projects ++ [⟨project_id, slug, pname, none⟩] }
  match db1.repos.find? (fun r => r.project_id = project_id ∧
      r.canonical_origin = canonical) with
  | some r =>
      ({ db1 with repos := db1.repos.map (fun (r2 : RepoRow) =>
        if r2.project_id = project_id ∧
            r2.canonical_origin = canonical then
          { r2 with origin_url := origin_url, deleted_at := none }
        else r2) }, r.id)
  | none =>
      let rid := "repo-" ++ toString db1.next_id
      let newrepos := db1.repos ++
        [⟨rid, project_id, origin_url, canonical, repo_name, none⟩]
      ({ db1 with
        repos := newrepos
        next_id := db1.next_id + 1 }, rid)

theorem register_project_repo_workspaces (db : DB)
    (project_id slug : String) (pname : Option String)
    (origin_url canonical repo_name : String) :
    (register_project_repo db project_id slug pname origin_url canonical
      repo_name).1.workspaces = db.workspaces := by
  unfold register_project_repo
  by_cases hp : db.projects.any (fun pr => pr.id = project_id) <;>
    simp only [hp, if_true, if_false, Bool.false_eq_true] <;>
      (cases hr : (DB.repos _).find? (fun r =>
          r.project_id = project_id ∧
            r.canonical_origin = canonical) <;> rfl)

/-- The workspace branch of the `register_workspace` transaction, after
the project and repo upserts produced `db2` and `repo_id`; `db` is the
caller's state, returned (rolled back) with every error. -/
def register_workspace_phase (db db2 : DB) (repo_id : String)
    (identity : AwebIdentity) (payload : RegisterWorkspaceRequest)
    (now : Nat) : RegisterResult :=
  match db2.workspaces.find? (fun w =>
      w.workspace_id = identity.agent_id) with
  | some existing =>
      if existing.project_id ≠ identity.project_id then
        .httpError db 409
          "Workspace already registered in another project"
      else if existing.repo_id.isSome ∧
          existing.repo_id ≠ some repo_id then
        .httpError db 409
          "Workspace already registered for another repo"
      else if existing.«alias» ≠ identity.«alias» then
        .httpError db 409
          "Workspace already registered with a different alias"
      else if aliasIndexConflict db2.workspaces existing.project_id
          existing.«alias» identity.agent_id then
        .dbError db
      else
        let newws := db2.workspaces.map (fun (w : WorkspaceRow) =>
          if w.workspace_id = identity.agent_id then
            { w with
              deleted_at := none
              hostname := payload.hostname
              workspace_path := payload.workspace_path
              role := payload.role
              human_name := identity.human_name
              updated_at := some now }
          else w)
        .ok { db2 with workspaces := newws } false
  | none =>
      if aliasIndexConflict db2.workspaces identity.project_id
          identity.«alias» identity.agent_id then
        .httpError db 409 ("Alias \x27" ++ identity.«alias» ++
          "\x27 is already used in this project")
      else
        let newws := db2.workspaces ++
          [⟨identity.agent_id, identity.project_id, some repo_id,
            identity.«alias», identity.human_name, payload.role,
            payload.hostname, payload.workspace_path, "agent", none,
            none, none, none, none, none, none, none⟩]
        .ok { db2 with workspaces := newws } true

/-- `POST /v1/workspaces/register`: validate the aweb-provided alias and
human name (502), canonicalise the origin, then in one transaction upsert
the project and repo rows and either re-register the existing workspace
(immutability: 409 on project/repo/alias mismatch, otherwise clear
`deleted_at` and update the mutable fields) or insert a new one,
converting a live-alias unique violation into a 409.  The insert leaves
`last_seen_at`/`updated_at` to their column defaults (not modelled:
`none`). -/
def register_workspace (canon : String → Option String)
    (extract_name : String → String)
    (is_valid_alias is_valid_human_name : String → Bool)
    (db : DB) (identity : AwebIdentity)
    (payload : RegisterWorkspaceRequest) (now : Nat) : RegisterResult :=
  if ¬ is_valid_alias identity.«alias» then
    .httpError db 502 "aweb returned invalid alias format"
  else if identity.human_name ≠ "" ∧
      ¬ is_valid_human_name identity.human_name then
    .httpError db 502 "aweb returned invalid human_name format"
  else
    match canon payload.repo_origin with
    | none => .dbError db
    | some canonical_origin =>
      let pname := match identity.project_name with
        | some s => if s = "" then none else some s
        | none => none
      let staged := register_project_repo db identity.project_id
        identity.project_slug pname payload.repo_origin canonical_origin
        (extract_name canonical_origin)
      register_workspace_phase db staged.1 staged.2 identity payload now

/-- Response of `POST /v1/workspaces/{workspace_id}/restore`. -/
structure RestoreWorkspaceResponse where
  workspace_id : String
  «alias» : String
  restored_at : Nat
deriving Repr, DecidableEq

/-- `POST /v1/workspaces/{workspace_id}/restore`: actor binding, 404 when
the workspace is unknown in the caller's project, 409 when it is not
deleted, 409 when its alias is now used by another live workspace of the
project, otherwise clear `deleted_at`. -/
def restore_workspace (identity : AuthIdentity) (db : DB)
    (project_id workspace_id : String) (now : Nat) :
    HandlerResult (DB × RestoreWorkspaceResponse) :=
  match enforce_actor_binding identity workspace_id with
  | .httpError st d => .httpError st d
  | .ok _ =>
    match db.workspaces.find? (fun w => w.workspace_id = workspace_id ∧
        w.project_id = project_id) with
    | none =>
        .httpError 404 ("Workspace " ++ workspace_id ++ " not found")
    | some existing =>
        if existing.deleted_at = none then
          .httpError 409 ("Workspace " ++ workspace_id ++
            " is already active (not deleted)")
        else
          match db.workspaces.find? (fun w =>
              w.project_id = existing.project_id ∧
              w.«alias» = existing.«alias» ∧
              w.workspace_id ≠ workspace_id ∧ w.deleted_at = none) with
          | some _ =>
              .httpError 409 ("Cannot restore: alias \x27" ++
                existing.«alias» ++
                "\x27 is now used by another workspace")
          | none =>
              let newws := db.workspaces.map (fun (w : WorkspaceRow) =>
                if w.workspace_id = workspace_id then
                  { w with
                    deleted_at := none
                    updated_at := some now }
                else w)
              .ok ({ db with workspaces := newws },
                ⟨workspace_id, existing.«alias», now⟩)

/-- Invariant: among live workspaces of a project, aliases identify the
workspace. -/
def aliasUniqueL (ws : List WorkspaceRow) : Prop :=
  ∀ w1 ∈ ws, ∀ w2 ∈ ws, w1.deleted_at = none → w2.deleted_at = none →
    w1.project_id = w2.project_id → w1.«alias» = w2.«alias» →
      w1.workspace_id = w2.workspace_id

/-- The workspace PRIMARY KEY: `workspace_id` identifies the row. -/
def wsPkUnique (ws : List WorkspaceRow) : Prop :=
  ∀ w1 ∈ ws, ∀ w2 ∈ ws, w1.workspace_id = w2.workspace_id → w1 = w2

/-- Reviving (or editing the mutable fields of) the rows of one workspace
id preserves alias uniqueness when no other live row of the project uses
that workspace's alias. -/
theorem aliasUnique_map_revive (ws : List WorkspaceRow) (wid : String)
    (f : WorkspaceRow → WorkspaceRow)
    (hfid : ∀ w, (f w).workspace_id = w.workspace_id ∧
      (f w).project_id = w.project_id ∧ (f w).«alias» = w.«alias»)
    (hfother : ∀ w, w.workspace_id ≠ wid → f w = w)
    (hpk : wsPkUnique ws)
    (existing : WorkspaceRow) (hex : existing ∈ ws)
    (hexw : existing.workspace_id = wid)
    (hnoother : ∀ w ∈ ws, ¬(w.project_id = existing.project_id ∧
      w.«alias» = existing.«alias» ∧ w.deleted_at = none ∧
      w.workspace_id ≠ wid))
    (hinv : aliasUniqueL ws) :
    aliasUniqueL (ws.map f) := by
  intro w1 hw1 w2 hw2 hl1 hl2 hp ha
  obtain ⟨o1, ho1, rfl⟩ := List.mem_map.mp hw1
  obtain ⟨o2, ho2, rfl⟩ := List.mem_map.mp hw2
  by_cases h1w : o1.workspace_id = wid <;>
    by_cases h2w : o2.workspace_id = wid
  · rw [(hfid o1).1, (hfid o2).1, h1w, h2w]
  · have he1 : o1 = existing := hpk o1 ho1 existing hex (by rw [h1w, hexw])
    rw [hfother o2 h2w] at hl2 hp ha ⊢
    exfalso
    refine hnoother o2 ho2 ⟨?_, ?_, hl2, h2w⟩
    · rw [← hp, (hfid o1).2.1, he1]
    · rw [← ha, (hfid o1).2.2, he1]
  · have he2 : o2 = existing := hpk o2 ho2 existing hex (by rw [h2w, hexw])
    rw [hfother o1 h1w] at hl1 hp ha ⊢
    exfalso
    refine hnoother o1 ho1 ⟨?_, ?_, hl1, h1w⟩
    · rw [hp, (hfid o2).2.1, he2]
    · rw [ha, (hfid o2).2.2, he2]
  · rw [hfother o1 h1w] at hl1 hp ha ⊢
    rw [hfother o2 h2w] at hl2 hp ha ⊢
    exact hinv o1 ho1 o2 ho2 hl1 hl2 hp ha

/-- Appending a live workspace row preserves alias uniqueness when no
other live row of its project uses its alias. -/
theorem aliasUnique_append (ws : List WorkspaceRow) (new : WorkspaceRow)
    (hno : ∀ w ∈ ws, ¬(w.project_id = new.project_id ∧
      w.«alias» = new.«alias» ∧ w.deleted_at = none ∧
      w.workspace_id ≠ new.workspace_id))
    (hinv : aliasUniqueL ws) : aliasUniqueL (ws ++ [new]) := by
  intro w1 hw1 w2 hw2 hl1 hl2 hp ha
  rcases List.mem_append.mp hw1 with h1 | h1 <;>
    rcases List.mem_append.mp hw2 with h2 | h2
  · exact hinv w1 h1 w2 h2 hl1 hl2 hp ha
  · simp only [List.mem_singleton] at h2
    subst h2
    by_cases hww : w1.workspace_id = w2.workspace_id
    · exact hww
    · exact absurd ⟨hp, ha, hl1, hww⟩ (hno w1 h1)
  · simp only [List.mem_singleton] at h1
    subst h1
    by_cases hww : w1.workspace_id = w2.workspace_id
    · exact hww
    · exact absurd ⟨hp.symm, ha.symm, hl2, fun he => hww he.symm⟩
        (hno w2 h2)
  · simp only [List.mem_singleton] at h1 h2
    rw [h1, h2]

theorem register_phase_insert_conflict (db db2 : DB)
    (repo_id : String) (identity : AwebIdentity)
    (payload : RegisterWorkspaceRequest) (now : Nat)
    (hws : db2.workspaces = db.workspaces)
    (hnf : db.workspaces.find? (fun w =>
      w.workspace_id = identity.agent_id) = none)
    (hconf : aliasIndexConflict db.workspaces identity.project_id
      identity.«alias» identity.agent_id = true) :
    register_workspace_phase db db2 repo_id identity payload now =
      .httpError db 409 ("Alias \x27" ++ identity.«alias» ++
        "\x27 is already used in this project") := by
  unfold register_workspace_phase
  rw [hws]
  simp only [hnf, hconf, if_true]

theorem register_phase_preserves (db db2 : DB) (repo_id : String)
    (identity : AwebIdentity) (payload : RegisterWorkspaceRequest)
    (now : Nat) (hws : db2.workspaces = db.workspaces)
    (hpk : wsPkUnique db.workspaces)
    (hinv : aliasUniqueL db.workspaces) :
    ∀ db' c, register_workspace_phase db db2 repo_id identity payload
      now = .ok db' c → aliasUniqueL db'.workspaces := by
  intro db' c hok
  unfold register_workspace_phase at hok
  rw [hws] at hok
  cases hnf : db.workspaces.find? (fun w =>
      w.workspace_id = identity.agent_id) with
  | some existing =>
      simp only [hnf] at hok
      by_cases hc1 : existing.project_id ≠ identity.project_id
      · rw [if_pos hc1] at hok
        exact absurd hok (by simp)
      rw [if_neg hc1] at hok
      by_cases hc2 : existing.repo_id.isSome = true ∧
          existing.repo_id ≠ some repo_id
      · rw [if_pos hc2] at hok
        exact absurd hok (by simp)
      rw [if_neg hc2] at hok
      by_cases hc3 : existing.«alias» ≠ identity.«alias»
      · rw [if_pos hc3] at hok
        exact absurd hok (by simp)
      rw [if_neg hc3] at hok
      by_cases hc4 : aliasIndexConflict db.workspaces
          existing.project_id existing.«alias» identity.agent_id = true
      · rw [if_pos hc4] at hok
        exact absurd hok (by simp)
      rw [if_neg hc4] at hok
      simp only [RegisterResult.ok.injEq] at hok
      obtain ⟨hdb, -⟩ := hok
      subst hdb
      refine aliasUnique_map_revive db.workspaces identity.agent_id _
        ?_ ?_ hpk existing (List.mem_of_find?_eq_some hnf)
        (by simpa using List.find?_some hnf) ?_ hinv
      · intro w
        by_cases hw : w.workspace_id = identity.agent_id <;> simp [hw]
      · intro w hw
        simp [hw]
      · intro w hw hcond
        have hcontra : aliasIndexConflict db.workspaces
            existing.project_id existing.«alias»
            identity.agent_id = true := by
          apply List.any_eq_true.mpr
          refine ⟨w, hw, ?_⟩
          simp only [decide_eq_true_eq]
          exact ⟨hcond.1, hcond.2.1, hcond.2.2.1, hcond.2.2.2⟩
        exact hc4 hcontra
  | none =>
      simp only [hnf] at hok
      by_cases hc : aliasIndexConflict db.workspaces identity.project_id
          identity.«alias» identity.agent_id = true
      · rw [if_pos hc] at hok
        exact absurd hok (by simp)
      rw [if_neg hc] at hok
      simp only [RegisterResult.ok.injEq] at hok
      obtain ⟨hdb, -⟩ := hok
      subst hdb
      refine aliasUnique_append db.workspaces _ ?_ hinv
      intro w hw hcond
      have hcontra : aliasIndexConflict db.workspaces identity.project_id
          identity.«alias» identity.agent_id = true := by
        apply List.any_eq_true.mpr
        refine ⟨w, hw, ?_⟩
        simp only [decide_eq_true_eq]
        exact ⟨hcond.1, hcond.2.1, hcond.2.2.1, hcond.2.2.2⟩
      exact hc hcontra

/-- C3: alias uniqueness.  `register_workspace` turns a unique violation
on its workspace insert into a 409 naming the alias, with the whole
transaction rolled back (no workspace created); `restore_workspace`
refuses with 409 to clear `deleted_at` when another live workspace of the
project now holds the alias; and both operations preserve the invariant
that an alias identifies at most one live workspace per project
(`workspace_id` being the table\x27s primary key). -/
theorem C3_alias_uniqueness (canon : String → Option String)
    (extract_name : String → String)
    (is_valid_alias is_valid_human_name : String → Bool)
    (db : DB) (identity : AwebIdentity)
    (payload : RegisterWorkspaceRequest) (authid : AuthIdentity)
    (project_id workspace_id : String) (now : Nat) :
    ((db.workspaces.find? (fun w =>
        w.workspace_id = identity.agent_id) = none) →
      aliasIndexConflict db.workspaces identity.project_id
        identity.«alias» identity.agent_id = true →
      is_valid_alias identity.«alias» = true →
      (identity.human_name = "" ∨
        is_valid_human_name identity.human_name = true) →
      (∃ co, canon payload.repo_origin = some co) →
      register_workspace canon extract_name is_valid_alias
        is_valid_human_name db identity payload now =
        .httpError db 409 ("Alias \x27" ++ identity.«alias» ++
          "\x27 is already used in this project")) ∧
    (wsPkUnique db.workspaces → aliasUniqueL db.workspaces →
      ∀ db' c, register_workspace canon extract_name is_valid_alias
        is_valid_human_name db identity payload now = .ok db' c →
        aliasUniqueL db'.workspaces) ∧
    (∀ existing, db.workspaces.find? (fun w =>
        w.workspace_id = workspace_id ∧
        w.project_id = project_id) = some existing →
      existing.deleted_at ≠ none →
      (∃ other ∈ db.workspaces, other.project_id = existing.project_id ∧
        other.«alias» = existing.«alias» ∧
        other.workspace_id ≠ workspace_id ∧ other.deleted_at = none) →
      enforce_actor_binding authid workspace_id = .ok () →
      restore_workspace authid db project_id workspace_id now =
        .httpError 409 ("Cannot restore: alias \x27" ++
          existing.«alias» ++ "\x27 is now used by another workspace")) ∧
    (wsPkUnique db.workspaces → aliasUniqueL db.workspaces →
      ∀ db' resp, restore_workspace authid db project_id workspace_id
        now = .ok (db', resp) →
        aliasUniqueL db'.workspaces) := by
  refine ⟨?_, ?_, ?_, ?_⟩
  · intro hnf hconf hva hvh hcoex
    obtain ⟨co, hco⟩ := hcoex
    have hvh' : ¬(identity.human_name ≠ "" ∧
        ¬ is_valid_human_name identity.human_name = true) := by
      rcases hvh with h | h
      · rintro ⟨hne, -⟩
        exact hne h
      · rintro ⟨-, hh⟩
        exact hh h
    unfold register_workspace
    rw [if_neg (by simp [hva])]
    rw [if_neg hvh']
    simp only [hco]
    exact register_phase_insert_conflict db _ _ identity payload now
      (register_project_repo_workspaces db identity.project_id
        identity.project_slug _ payload.repo_origin co
        (extract_name co)) hnf hconf
  · intro hpk hinv db' c hok
    unfold register_workspace at hok
    by_cases hva : (¬ is_valid_alias identity.«alias» = true)
    · rw [if_pos hva] at hok
      exact absurd hok (by simp)
    rw [if_neg hva] at hok
    by_cases hvh : identity.human_name ≠ "" ∧
        ¬ is_valid_human_name identity.human_name = true
    · rw [if_pos hvh] at hok
      exact absurd hok (by simp)
    rw [if_neg hvh] at hok
    cases hco : canon payload.repo_origin with
    | none =>
        simp only [hco] at hok
        exact absurd hok (by simp)
    | some co =>
        simp only [hco] at hok
        exact register_phase_preserves db _ _ identity payload now
          (register_project_repo_workspaces db identity.project_id
            identity.project_slug _ payload.repo_origin co
            (extract_name co)) hpk hinv db' c hok
  · intro existing hfind hdel hother hbind
    unfold restore_workspace
    simp only [hbind, hfind]
    rw [if_neg hdel]
    obtain ⟨other, hom, ho1, ho2, ho3, ho4⟩ := hother
    have hsome : (db.workspaces.find? (fun w =>
        w.project_id = existing.project_id ∧
        w.«alias» = existing.«alias» ∧
        w.workspace_id ≠ workspace_id ∧
        w.deleted_at = none)).isSome := by
      rw [List.find?_isSome]
      exact ⟨other, hom, by simp [ho1, ho2, ho3, ho4]⟩
    obtain ⟨oth, hoth⟩ := Option.isSome_iff_exists.mp hsome
    simp only [hoth]
  · intro hpk hinv db' resp hok
    unfold restore_workspace at hok
    cases hb : enforce_actor_binding authid workspace_id with
    | httpError st d =>
        simp only [hb] at hok
        exact absurd hok (by simp)
    | ok u =>
      simp only [hb] at hok
      cases hfind : db.workspaces.find? (fun w =>
          w.workspace_id = workspace_id ∧
          w.project_id = project_id) with
      | none =>
          simp only [hfind] at hok
          exact absurd hok (by simp)
      | some existing =>
        simp only [hfind] at hok
        by_cases hdel : existing.deleted_at = none
        · rw [if_pos hdel] at hok
          exact absurd hok (by simp)
        rw [if_neg hdel] at hok
        cases hconf : db.workspaces.find? (fun w =>
            w.project_id = existing.project_id ∧
            w.«alias» = existing.«alias» ∧
            w.workspace_id ≠ workspace_id ∧ w.deleted_at = none) with
        | some oth =>
            simp only [hconf] at hok
            exact absurd hok (by simp)
        | none =>
          simp only [hconf, HandlerResult.ok.injEq,
            Prod.mk.injEq] at hok
          obtain ⟨hdb, -⟩ := hok
          subst hdb
          have hfw := List.find?_some hfind
          simp only [decide_eq_true_eq] at hfw
          refine aliasUnique_map_revive db.workspaces workspace_id _
            ?_ ?_ hpk existing (List.mem_of_find?_eq_some hfind)
            hfw.1 ?_ hinv
          · intro w
            by_cases hw : w.workspace_id = workspace_id <;> simp [hw]
          · intro w hw
            simp [hw]
          · intro w hw hcond
            have := List.find?_eq_none.mp hconf w hw
            simp only [decide_eq_true_eq] at this
            exact this ⟨hcond.1, hcond.2.1, hcond.2.2.2, hcond.2.2.1⟩

/-- A project with a live workspace `w1` (alias `ada`), a soft-deleted
`w3` whose alias `bob` has been taken over by the live `w4`, and a
soft-deleted `w6` (alias `carol`) free to restore. -/
def dbAliasSample : DB :=
  { projects := [⟨"p1", "proj-one", none, none⟩]
    repos := [⟨"r1", "p1", "git@host:org/repo.git", "host/org/repo",
      "repo", none⟩]
    workspaces := [
      ⟨"w1", "p1", some "r1", "ada", "Ada", none, none, none, "agent",
        none, some 1, none, none, none, none, none, some 1⟩,
      ⟨"w3", "p1", some "r1", "bob", "Bob", none, none, none, "agent",
        none, some 1, none, none, none, none, some 5, some 5⟩,
      ⟨"w4", "p1", some "r1", "bob", "Bobby", none, none, none, "agent",
        none, some 1, none, none, none, none, none, some 6⟩,
      ⟨"w6", "p1", some "r1", "carol", "Carol", none, none, none,
        "agent", none, some 1, none, none, none, none, some 5, some 5⟩]
    bead_claims := []
    beads_issues := []
    next_id := 0 }

theorem C3_alias_uniqueness_witness :
    register_workspace (fun _ => some "host/org/repo") (fun _ => "repo")
      (fun _ => true) (fun _ => true) dbAliasSample
      ⟨"p1", "w2", "ada", "Ada Two", "proj-one", none⟩
      ⟨"git@host:org/repo.git", none, none, none⟩ 10 =
      .httpError dbAliasSample 409
        "Alias \x27ada\x27 is already used in this project" ∧
    (∀ db' c, register_workspace (fun _ => some "host/org/repo")
        (fun _ => "repo") (fun _ => true) (fun _ => true) dbAliasSample
        ⟨"p1", "w5", "eve", "Eve", "proj-one", none⟩
        ⟨"git@host:org/repo.git", none, none, none⟩ 10 = .ok db' c →
      aliasUniqueL db'.workspaces) ∧
    restore_workspace ⟨"bearer", some "w3"⟩ dbAliasSample "p1" "w3" 11 =
      .httpError 409
        "Cannot restore: alias \x27bob\x27 is now used by another workspace" ∧
    (∀ db' resp, restore_workspace ⟨"bearer", some "w6"⟩ dbAliasSample
        "p1" "w6" 11 = .ok (db', resp) →
      aliasUniqueL db'.workspaces) := by
  have hpk : wsPkUnique dbAliasSample.workspaces := by
    unfold wsPkUnique
    decide
  have hinv : aliasUniqueL dbAliasSample.workspaces := by
    unfold aliasUniqueL
    decide
  refine ⟨?_, ?_, ?_, ?_⟩
  · have h := (C3_alias_uniqueness (fun _ => some "host/org/repo")
      (fun _ => "repo") (fun _ => true) (fun _ => true) dbAliasSample
      ⟨"p1", "w2", "ada", "Ada Two", "proj-one", none⟩
      ⟨"git@host:org/repo.git", none, none, none⟩ ⟨"bearer", some "w3"⟩
      "p1" "w3" 10).1 (by decide) (by decide) rfl (Or.inr rfl)
      ⟨"host/org/repo", rfl⟩
    exact h
  · exact (C3_alias_uniqueness (fun _ => some "host/org/repo")
      (fun _ => "repo") (fun _ => true) (fun _ => true) dbAliasSample
      ⟨"p1", "w5", "eve", "Eve", "proj-one", none⟩
      ⟨"git@host:org/repo.git", none, none, none⟩ ⟨"bearer", some "w3"⟩
      "p1" "w3" 10).2.1 hpk hinv
  · have h := (C3_alias_uniqueness (fun _ => some "host/org/repo")
      (fun _ => "repo") (fun _ => true) (fun _ => true) dbAliasSample
      ⟨"p1", "w2", "ada", "Ada Two", "proj-one", none⟩
      ⟨"git@host:org/repo.git", none, none, none⟩ ⟨"bearer", some "w3"⟩
      "p1" "w3" 11).2.2.1
      ⟨"w3", "p1", some "r1", "bob", "Bob", none, none, none, "agent",
        none, some 1, none, none, none, none, some 5, some 5⟩
      (by decide) (by decide)
      ⟨⟨"w4", "p1", some "r1", "bob", "Bobby", none, none, none, "agent",
        none, some 1, none, none, none, none, none, some 6⟩,
        by decide, by decide, by decide, by decide, by decide⟩
      (by decide)
    exact h
  · exact (C3_alias_uniqueness (fun _ => some "host/org/repo")
      (fun _ => "repo") (fun _ => true) (fun _ => true) dbAliasSample
      ⟨"p1", "w2", "ada", "Ada Two", "proj-one", none⟩
      ⟨"git@host:org/repo.git", none, none, none⟩ ⟨"bearer", some "w6"⟩
      "p1" "w6" 11).2.2.2 hpk hinv

theorem alistGet_alistDel {α : Type} (l : List (String × α))
    (k : String) : alistGet (alistDel l k) k = none := by
  unfold alistGet alistDel
  have hnone : (l.filter (fun p => p.1 ≠ k)).find? (fun p => p.1 = k) =
      none := by
    rw [List.find?_eq_none]
    intro p hp
    have hpf := List.of_mem_filter hp
    simp only [decide_not, Bool.not_eq_eq_eq_not, Bool.not_true,
      decide_eq_false_iff_not] at hpf
    simpa using hpf
  rw [hnone]

/-- A keyspace holding live presence for `w1`. -/
def rsPresenceSample : RedisState :=
  { hashes := [("presence:w1", [("alias", "ada"), ("project_id", "p1")])]
    sets := [("idx:all_workspaces", ["w1"])]
    strings := []
    ttls := [("presence:w1", 1800)] }

/-- `dbAliasSample` after soft-deleting `w1` at time 10. -/
def dbAliasSampleW1Deleted : DB :=
  { projects := [⟨"p1", "proj-one", none, none⟩]
    repos := [⟨"r1", "p1", "git@host:org/repo.git", "host/org/repo",
      "repo", none⟩]
    workspaces := [
      ⟨"w1", "p1", some "r1", "ada", "Ada", none, none, none, "agent",
        none, some 1, none, none, none, none, some 10, some 1⟩,
      ⟨"w3", "p1", some "r1", "bob", "Bob", none, none, none, "agent",
        none, some 1, none, none, none, none, some 5, some 5⟩,
      ⟨"w4", "p1", some "r1", "bob", "Bobby", none, none, none, "agent",
        none, some 1, none, none, none, none, none, some 6⟩,
      ⟨"w6", "p1", some "r1", "carol", "Carol", none, none, none,
        "agent", none, some 1, none, none, none, none, some 5, some 5⟩]
    bead_claims := []
    beads_issues := []
    next_id := 0 }

/-- C5 counterexample: `delete_workspace` succeeds on the live workspace
`w1` and returns the Redis keyspace untouched — the presence hash
`presence:w1` is still there afterwards, so the delete endpoint does not
clear Redis presence (the claim attributes the presence clearing to the
soft-delete endpoint; only the agent-deregistration cascade clears it). -/
theorem C5_delete_presence_counterexample :
    delete_workspace dbAliasSample rsPresenceSample "p1" "w1" 10 =
      .ok dbAliasSampleW1Deleted rsPresenceSample ⟨"w1", "ada", 10⟩ ∧
    redisHget rsPresenceSample (_presence_key "w1") "alias" =
      some "ada" := by
  constructor
  · decide
  · decide

/-- C5 (amended): `delete_workspace` soft-deletes the workspace (every
row of that `workspace_id` gets `deleted_at`), deletes every
`bead_claims` row of the workspace while keeping all others, and leaves
Redis untouched (presence expires via its TTL instead); the
`agent.deregistered` cascade additionally clears the workspace's Redis
presence after the same soft-delete-and-release transaction. -/
theorem C5_soft_delete_cascade (db : DB) (rs : RedisState)
    (project_id workspace_id : String) (now : Nat)
    (isUUID : String → Bool) (ctx_agent : Option String) :
    (∀ db' rs' resp,
      delete_workspace db rs project_id workspace_id now =
        .ok db' rs' resp →
      (∀ w ∈ db'.workspaces, w.workspace_id = workspace_id →
        w.deleted_at = some now) ∧
      (∀ c ∈ db'.bead_claims, c.workspace_id ≠ workspace_id) ∧
      (∀ c ∈ db.bead_claims, c.workspace_id ≠ workspace_id →
        c ∈ db'.bead_claims) ∧
      rs' = rs) ∧
    (∀ wfound, db.workspaces.find? (fun w =>
        w.workspace_id = pyStrip (ctx_agent.getD "") ∧
        w.deleted_at = none) = some wfound →
      pyStrip (ctx_agent.getD "") ≠ "" →
      isUUID (pyStrip (ctx_agent.getD "")) = true →
      (∀ w ∈ (_cascade_agent_deregistered isUUID db rs ctx_agent
          now).1.workspaces,
        w.workspace_id = pyStrip (ctx_agent.getD "") →
          w.deleted_at = some now) ∧
      (∀ c ∈ (_cascade_agent_deregistered isUUID db rs ctx_agent
          now).1.bead_claims,
        c.workspace_id ≠ pyStrip (ctx_agent.getD "")) ∧
      (∀ f, redisHget (_cascade_agent_deregistered isUUID db rs
          ctx_agent now).2
        (_presence_key (pyStrip (ctx_agent.getD ""))) f = none)) := by
  constructor
  · intro db' rs' resp hok
    unfold delete_workspace at hok
    cases hfind : db.workspaces.find? (fun w =>
        w.workspace_id = workspace_id ∧ w.project_id = project_id) with
    | none =>
        simp only [hfind] at hok
        exact absurd hok (by simp)
    | some existing =>
        simp only [hfind] at hok
        by_cases hdel : existing.deleted_at.isSome = true
        · rw [if_pos hdel] at hok
          exact absurd hok (by simp)
        rw [if_neg hdel] at hok
        simp only [StateResult.ok.injEq] at hok
        obtain ⟨hdb, hrs, -⟩ := hok
        subst hdb
        subst hrs
        refine ⟨?_, ?_, ?_, rfl⟩
        · intro w hw hww
          obtain ⟨o, ho, hmap⟩ := List.mem_map.mp hw
          by_cases hom : o.workspace_id = workspace_id
          · rw [if_pos hom] at hmap
            rw [← hmap]
          · rw [if_neg hom] at hmap
            subst hmap
            exact absurd hww hom
        · intro c hc
          have := List.of_mem_filter hc
          simpa using this
        · intro c hc hcw
          exact List.mem_filter.mpr ⟨hc, by simpa using hcw⟩
  · intro wfound hfind hne huuid
    unfold _cascade_agent_deregistered
    rw [if_neg hne, if_neg (by simp [huuid]), hfind]
    refine ⟨?_, ?_, ?_⟩
    · intro w hw hww
      obtain ⟨o, ho, hmap⟩ := List.mem_map.mp hw
      by_cases hom : o.workspace_id = pyStrip (ctx_agent.getD "")
      · rw [if_pos hom] at hmap
        rw [← hmap]
      · rw [if_neg hom] at hmap
        subst hmap
        exact absurd hww hom
    · intro c hc
      have := List.of_mem_filter hc
      simpa using this
    · intro f
      have hhash : (clear_workspace_presence rs
          [pyStrip (ctx_agent.getD "")]).hashes =
          alistDel rs.hashes
            (_presence_key (pyStrip (ctx_agent.getD ""))) := by
        unfold clear_workspace_presence
        rw [if_neg (by simp)]
        rfl
      unfold redisHget
      rw [hhash, alistGet_alistDel]
      rfl

/-- A deregistration context and database for the cascade witness. -/
theorem C5_soft_delete_cascade_witness :
    (∀ db' rs' resp,
      delete_workspace dbAliasSample rsPresenceSample "p1" "w1" 10 =
        .ok db' rs' resp →
      (∀ w ∈ db'.workspaces, w.workspace_id = "w1" →
        w.deleted_at = some 10) ∧
      (∀ c ∈ db'.bead_claims, c.workspace_id ≠ "w1") ∧
      (∀ c ∈ dbAliasSample.bead_claims, c.workspace_id ≠ "w1" →
        c ∈ db'.bead_claims) ∧
      rs' = rsPresenceSample) ∧
    ((∀ w ∈ (_cascade_agent_deregistered (fun _ => true) dbAliasSample
        rsPresenceSample (some "w1") 10).1.workspaces,
      w.workspace_id = "w1" → w.deleted_at = some 10) ∧
     (∀ c ∈ (_cascade_agent_deregistered (fun _ => true) dbAliasSample
        rsPresenceSample (some "w1") 10).1.bead_claims,
      c.workspace_id ≠ "w1") ∧
     (∀ f, redisHget (_cascade_agent_deregistered (fun _ => true)
        dbAliasSample rsPresenceSample (some "w1") 10).2
        (_presence_key "w1") f = none)) := by
  have hth := C5_soft_delete_cascade dbAliasSample rsPresenceSample "p1"
    "w1" 10 (fun _ => true) (some "w1")
  exact ⟨hth.1, hth.2
    ⟨"w1", "p1", some "r1", "ada", "Ada", none, none, none, "agent",
      none, some 1, none, none, none, none, none, some 1⟩
    (by decide) (by decide) rfl⟩

theorem heartbeat_of_precheck_some (canon : String → Option String)
    (extract_name : String → String) (quote : String → String)
    (roleMaxLen : Nat) (is_valid_role : String → Bool)
    (normalize_role : String → String)
    (update_aweb : RedisState → String → String → String → Nat →
      RedisState)
    (identity : AuthIdentity) (identity_project : String)
    (presence_ttl : Nat) (db : DB) (rs : RedisState)
    (payload : WorkspaceHeartbeatRequest) (now : Nat) (nowIso : String)
    (hbind : enforce_actor_binding identity payload.workspace_id =
      .ok ()) (st : Nat) (d : String)
    (hpre : heartbeat_precheck identity_project payload
      (db.workspaces.find? (fun w =>
        w.workspace_id = payload.workspace_id)) = some (st, d)) :
    heartbeat canon extract_name quote roleMaxLen is_valid_role
      normalize_role update_aweb identity identity_project presence_ttl
      db rs payload now nowIso = .httpError db rs st d := by
  unfold heartbeat
  simp only [hbind, hpre]

/-- C6: heartbeat pre-checks and atomicity.  When the workspace row
exists: soft-deleted → 410; live but in another project → 400; live, same
project, but stored alias differs from the request alias → 409 — and in
each case the handler returns with the database and Redis keyspace
exactly as it received them (the pre-checks run before any write).  A
heartbeat for a workspace that `delete_workspace` just soft-deleted
returns 410. -/
theorem C6_heartbeat_prechecks (canon : String → Option String)
    (extract_name : String → String) (quote : String → String)
    (roleMaxLen : Nat) (is_valid_role : String → Bool)
    (normalize_role : String → String)
    (update_aweb : RedisState → String → String → String → Nat →
      RedisState)
    (identity : AuthIdentity) (identity_project : String)
    (presence_ttl : Nat) (db : DB) (rs : RedisState)
    (payload : WorkspaceHeartbeatRequest) (now dnow : Nat)
    (nowIso : String)
    (hbind : enforce_actor_binding identity payload.workspace_id =
      .ok ()) :
    (∀ existing, db.workspaces.find? (fun w =>
        w.workspace_id = payload.workspace_id) = some existing →
      (existing.deleted_at.isSome →
        heartbeat canon extract_name quote roleMaxLen is_valid_role
          normalize_role update_aweb identity identity_project
          presence_ttl db rs payload now nowIso = .httpError db rs 410
          "Workspace was deleted. Run \x27bdh :init\x27 to re-register.") ∧
      (existing.deleted_at = none → existing.project_id ≠ "" →
        existing.project_id ≠ identity_project →
        heartbeat canon extract_name quote roleMaxLen is_valid_role
          normalize_role update_aweb identity identity_project
          presence_ttl db rs payload now nowIso = .httpError db rs 400
          ("Workspace " ++ payload.workspace_id ++
            " does not belong to this project. This may indicate a corrupted .beadhub file. Try running \x27bdh :init\x27 again.")) ∧
      (existing.deleted_at = none →
        ¬(existing.project_id ≠ "" ∧
          existing.project_id ≠ identity_project) →
        existing.«alias» ≠ "" → existing.«alias» ≠ payload.«alias» →
        heartbeat canon extract_name quote roleMaxLen is_valid_role
          normalize_role update_aweb identity identity_project
          presence_ttl db rs payload now nowIso = .httpError db rs 409
          ("Alias mismatch for workspace " ++ payload.workspace_id ++
            " (expected \x27" ++ existing.«alias» ++ "\x27, got \x27" ++
            payload.«alias» ++
            "\x27). Run \x27bdh :init\x27 to re-register."))) ∧
    (∀ db' rs' resp,
      delete_workspace db rs identity_project payload.workspace_id
        dnow = .ok db' rs' resp →
      heartbeat canon extract_name quote roleMaxLen is_valid_role
        normalize_role update_aweb identity identity_project
        presence_ttl db' rs' payload now nowIso = .httpError db' rs' 410
        "Workspace was deleted. Run \x27bdh :init\x27 to re-register.") := by
  constructor
  · intro existing hfind
    refine ⟨?_, ?_, ?_⟩
    · intro hdel
      apply heartbeat_of_precheck_some canon extract_name quote
        roleMaxLen is_valid_role normalize_role update_aweb identity
        identity_project presence_ttl db rs payload now nowIso hbind
      rw [hfind]
      simp only [heartbeat_precheck]
      rw [if_pos hdel]
    · intro hdel hpne hpdiff
      apply heartbeat_of_precheck_some canon extract_name quote
        roleMaxLen is_valid_role normalize_role update_aweb identity
        identity_project presence_ttl db rs payload now nowIso hbind
      rw [hfind]
      simp only [heartbeat_precheck]
      rw [if_neg (by simp [hdel]), if_pos ⟨hpne, hpdiff⟩]
    · intro hdel hproj hane hadiff
      apply heartbeat_of_precheck_some canon extract_name quote
        roleMaxLen is_valid_role normalize_role update_aweb identity
        identity_project presence_ttl db rs payload now nowIso hbind
      rw [hfind]
      simp only [heartbeat_precheck]
      rw [if_neg (by simp [hdel]), if_neg hproj,
        if_pos ⟨hane, hadiff⟩]
  · intro db' rs' resp hok
    unfold delete_workspace at hok
    cases hfind : db.workspaces.find? (fun w =>
        w.workspace_id = payload.workspace_id ∧
        w.project_id = identity_project) with
    | none =>
        simp only [hfind] at hok
        exact absurd hok (by simp)
    | some existing =>
        simp only [hfind] at hok
        by_cases hdel : existing.deleted_at.isSome = true
        · rw [if_pos hdel] at hok
          exact absurd hok (by simp)
        rw [if_neg hdel] at hok
        simp only [StateResult.ok.injEq] at hok
        obtain ⟨hdb, hrs, -⟩ := hok
        subst hdb
        subst hrs
        have hpred := List.find?_some hfind
        simp only [decide_eq_true_eq] at hpred
        have hmem := List.mem_of_find?_eq_some hfind
        have hfs : ∃ ex2, (db.workspaces.map (fun (w : WorkspaceRow) =>
            if w.workspace_id = payload.workspace_id then
              { w with deleted_at := some dnow }
            else w)).find? (fun w =>
              w.workspace_id = payload.workspace_id) = some ex2 := by
          apply Option.isSome_iff_exists.mp
          rw [List.find?_isSome]
          refine ⟨{ existing with deleted_at := some dnow }, ?_, ?_⟩
          · refine List.mem_map.mpr ⟨existing, hmem, ?_⟩
            rw [if_pos hpred.1]
          · simp [hpred.1]
        obtain ⟨ex2, hex2⟩ := hfs
        have hex2mem := List.mem_of_find?_eq_some hex2
        have hex2id := List.find?_some hex2
        simp only [decide_eq_true_eq] at hex2id
        have hex2del : ex2.deleted_at = some dnow := by
          obtain ⟨o, ho, hmap⟩ := List.mem_map.mp hex2mem
          by_cases hom : o.workspace_id = payload.workspace_id
          · rw [if_pos hom] at hmap
            rw [← hmap]
          · rw [if_neg hom] at hmap
            subst hmap
            exact absurd hex2id hom
        apply heartbeat_of_precheck_some canon extract_name quote
          roleMaxLen is_valid_role normalize_role update_aweb identity
          identity_project presence_ttl _ rs payload now nowIso hbind
        have hfind' : (DB.workspaces { db with
            workspaces := db.workspaces.map (fun (w : WorkspaceRow) =>
              if w.workspace_id = payload.workspace_id then
                { w with deleted_at := some dnow }
              else w) }).find? (fun w =>
                w.workspace_id = payload.workspace_id) = some ex2 := hex2
        rw [hfind']
        simp only [heartbeat_precheck]
        rw [if_pos (by simp [hex2del])]

theorem C6_heartbeat_prechecks_witness :
    heartbeat (fun _ => some "host/org/repo") (fun _ => "repo")
      (fun sx => sx) 50 (fun _ => true) (fun r => r)
      (fun rs0 _ _ _ _ => rs0) ⟨"bearer", some "w3"⟩ "p1" 1800
      dbAliasSample rsPresenceSample
      ⟨"w3", "bob", "git@host:org/repo.git", none, none, none, none,
        none⟩ 20 "t1" =
      .httpError dbAliasSample rsPresenceSample 410
        "Workspace was deleted. Run \x27bdh :init\x27 to re-register." ∧
    heartbeat (fun _ => some "host/org/repo") (fun _ => "repo")
      (fun sx => sx) 50 (fun _ => true) (fun r => r)
      (fun rs0 _ _ _ _ => rs0) ⟨"bearer", some "w1"⟩ "p2" 1800
      dbAliasSample rsPresenceSample
      ⟨"w1", "ada", "git@host:org/repo.git", none, none, none, none,
        none⟩ 20 "t1" =
      .httpError dbAliasSample rsPresenceSample 400
        ("Workspace " ++ "w1" ++
          " does not belong to this project. This may indicate a corrupted .beadhub file. Try running \x27bdh :init\x27 again.") ∧
    heartbeat (fun _ => some "host/org/repo") (fun _ => "repo")
      (fun sx => sx) 50 (fun _ => true) (fun r => r)
      (fun rs0 _ _ _ _ => rs0) ⟨"bearer", some "w1"⟩ "p1" 1800
      dbAliasSample rsPresenceSample
      ⟨"w1", "zoe", "git@host:org/repo.git", none, none, none, none,
        none⟩ 20 "t1" =
      .httpError dbAliasSample rsPresenceSample 409
        ("Alias mismatch for workspace " ++ "w1" ++ " (expected \x27" ++
          "ada" ++ "\x27, got \x27" ++ "zoe" ++
          "\x27). Run \x27bdh :init\x27 to re-register.") ∧
    heartbeat (fun _ => some "host/org/repo") (fun _ => "repo")
      (fun sx => sx) 50 (fun _ => true) (fun r => r)
      (fun rs0 _ _ _ _ => rs0) ⟨"bearer", some "w1"⟩ "p1" 1800
      dbAliasSampleW1Deleted rsPresenceSample
      ⟨"w1", "ada", "git@host:org/repo.git", none, none, none, none,
        none⟩ 20 "t1" =
      .httpError dbAliasSampleW1Deleted rsPresenceSample 410
        "Workspace was deleted. Run \x27bdh :init\x27 to re-register." := by
  refine ⟨?_, ?_, ?_, ?_⟩
  · exact ((C6_heartbeat_prechecks (fun _ => some "host/org/repo")
      (fun _ => "repo") (fun sx => sx) 50 (fun _ => true) (fun r => r)
      (fun rs0 _ _ _ _ => rs0) ⟨"bearer", some "w3"⟩ "p1" 1800
      dbAliasSample rsPresenceSample
      ⟨"w3", "bob", "git@host:org/repo.git", none, none, none, none,
        none⟩ 20 10 "t1" (by decide)).1
      ⟨"w3", "p1", some "r1", "bob", "Bob", none, none, none, "agent",
        none, some 1, none, none, none, none, some 5, some 5⟩
      (by decide)).1 (by decide)
  · exact (((C6_heartbeat_prechecks (fun _ => some "host/org/repo")
      (fun _ => "repo") (fun sx => sx) 50 (fun _ => true) (fun r => r)
      (fun rs0 _ _ _ _ => rs0) ⟨"bearer", some "w1"⟩ "p2" 1800
      dbAliasSample rsPresenceSample
      ⟨"w1", "ada", "git@host:org/repo.git", none, none, none, none,
        none⟩ 20 10 "t1" (by decide)).1
      ⟨"w1", "p1", some "r1", "ada", "Ada", none, none, none, "agent",
        none, some 1, none, none, none, none, none, some 1⟩
      (by decide)).2.1 rfl (by decide) (by decide))
  · exact (((C6_heartbeat_prechecks (fun _ => some "host/org/repo")
      (fun _ => "repo") (fun sx => sx) 50 (fun _ => true) (fun r => r)
      (fun rs0 _ _ _ _ => rs0) ⟨"bearer", some "w1"⟩ "p1" 1800
      dbAliasSample rsPresenceSample
      ⟨"w1", "zoe", "git@host:org/repo.git", none, none, none, none,
        none⟩ 20 10 "t1" (by decide)).1
      ⟨"w1", "p1", some "r1", "ada", "Ada", none, none, none, "agent",
        none, some 1, none, none, none, none, none, some 1⟩
      (by decide)).2.2 rfl (by decide) (by decide) (by decide))
  · exact ((C6_heartbeat_prechecks (fun _ => some "host/org/repo")
      (fun _ => "repo") (fun sx => sx) 50 (fun _ => true) (fun r => r)
      (fun rs0 _ _ _ _ => rs0) ⟨"bearer", some "w1"⟩ "p1" 1800
      dbAliasSample rsPresenceSample
      ⟨"w1", "ada", "git@host:org/repo.git", none, none, none, none,
        none⟩ 20 10 "t1" (by decide)).2 dbAliasSampleW1Deleted
      rsPresenceSample ⟨"w1", "ada", 10⟩ (by decide))

theorem C10_actor_binding_witness :
    (enforce_actor_binding ⟨"bearer", some "w1"⟩ "w2" =
        .httpError 403 "workspace_id does not match API key identity" ↔
      "bearer" = "bearer" ∧ ∃ a, (some "w1" : Option String) = some a ∧
        a ≠ "w2") ∧
    ("bearer" = "bearer" → (some "w1" : Option String) = none →
      enforce_actor_binding ⟨"bearer", some "w1"⟩ "w2" = .ok ()) ∧
    ("bearer" = "proxy" →
      enforce_actor_binding ⟨"bearer", some "w1"⟩ "w2" = .ok ()) :=
  C10_actor_binding ⟨"bearer", some "w1"⟩ "w2"

theorem C2_proxy_auth_witness :
    parse_internal_auth_context (fun _ m => m) (fun u => some u)
      (some "sek")
      ⟨some "v2:p:u:usr:act:v2:p:u:usr:act", some "p", some "usr", none,
        some "act"⟩ =
      .accepted ⟨"p", "u", "usr", "act"⟩ := by
  have h := (C2_proxy_auth (fun _ m => m) (fun u => some u) (some "sek")
    ⟨some "v2:p:u:usr:act:v2:p:u:usr:act", some "p", some "usr", none,
      some "act"⟩).2.1 ⟨"p", "u", "usr", "act"⟩
  exact h.mpr ⟨rfl, rfl, rfl, rfl, by decide, rfl, rfl, by decide⟩

end BeadHub
